import Mathlib

/-!
Shallow embedding of the damo control-plane data model (src/_damon.py) and of
the monitoring-result pipeline (src/_damon_result.py).  Python integers are
modelled as Int, Python float arithmetic as exact rational arithmetic, and
Python exceptions as Option/Except failures.
-/

/-- Truncation toward zero, the behaviour of Python int() applied to a number. -/
def pyInt (q : ℚ) : ℤ := if 0 ≤ q then ⌊q⌋ else ⌈q⌉

/-- Unit tags for DamosAccessPattern.nr_accesses (src/_damon.py lines 142-143). -/
inductive NrAccessesUnit where
  | percent
  | sample_intervals
deriving DecidableEq, Repr

/-- Unit tags for DamosAccessPattern age (src/_damon.py lines 144-145). -/
inductive AgeUnit where
  | usec
  | aggr_intervals
deriving DecidableEq, Repr

/-- DamonIntervals (src/_damon.py lines 19-27): sampling, aggregation and
ops-update intervals, canonically in microseconds. -/
structure DamonIntervals where
  sample : ℤ
  aggr : ℤ
  ops_update : ℤ
deriving DecidableEq, Repr

/-- DamosAccessPattern (src/_damon.py lines 147-190): size range in bytes,
access-frequency range tagged with a NrAccessesUnit and age range tagged with
an AgeUnit. -/
structure DamosAccessPattern where
  min_sz_bytes : ℤ
  max_sz_bytes : ℤ
  min_nr_accesses : ℤ
  max_nr_accesses : ℤ
  nr_accesses_unit : NrAccessesUnit
  min_age : ℤ
  max_age : ℤ
  age_unit : AgeUnit
deriving DecidableEq, Repr

/-- DamosAccessPattern.convert_nr_accesses_unit (src/_damon.py lines 256-272).
Python's true division `intervals.aggr / intervals.sample` and the `int(...)`
truncations are modelled over the exact rationals. -/
def DamosAccessPattern.convert_nr_accesses_unit (p : DamosAccessPattern)
    (u : NrAccessesUnit) (intervals : DamonIntervals) : DamosAccessPattern :=
  if p.nr_accesses_unit = u then p
  else
    let max_nr_accesses_sample_intervals : ℚ :=
      (intervals.aggr : ℚ) / (intervals.sample : ℚ)
    match u with
    | .sample_intervals =>
      { p with
        min_nr_accesses :=
          pyInt ((p.min_nr_accesses : ℚ) * max_nr_accesses_sample_intervals / 100)
        max_nr_accesses :=
          pyInt ((p.max_nr_accesses : ℚ) * max_nr_accesses_sample_intervals / 100)
        nr_accesses_unit := u }
    | .percent =>
      { p with
        min_nr_accesses :=
          pyInt ((p.min_nr_accesses : ℚ) * 100 / max_nr_accesses_sample_intervals)
        max_nr_accesses :=
          pyInt ((p.max_nr_accesses : ℚ) * 100 / max_nr_accesses_sample_intervals)
        nr_accesses_unit := u }

/-- DamosAccessPattern.convert_age_unit (src/_damon.py lines 274-285).  The
aggr_intervals-to-usec direction is pure integer multiplication in the source;
the reverse direction truncates a true division. -/
def DamosAccessPattern.convert_age_unit (p : DamosAccessPattern)
    (u : AgeUnit) (intervals : DamonIntervals) : DamosAccessPattern :=
  if p.age_unit = u then p
  else
    match u with
    | .usec =>
      { p with
        min_age := p.min_age * intervals.aggr
        max_age := p.max_age * intervals.aggr
        age_unit := u }
    | .aggr_intervals =>
      { p with
        min_age := pyInt ((p.min_age : ℚ) / (intervals.aggr : ℚ))
        max_age := pyInt ((p.max_age : ℚ) / (intervals.aggr : ℚ))
        age_unit := u }

/-- DamosAccessPattern.converted_for_units (src/_damon.py lines 287-294):
nr_accesses conversion followed by age conversion, on a copy (the model is
pure, so convert_for_units and converted_for_units coincide). -/
def DamosAccessPattern.converted_for_units (p : DamosAccessPattern)
    (u1 : NrAccessesUnit) (u2 : AgeUnit) (intervals : DamonIntervals) :
    DamosAccessPattern :=
  (p.convert_nr_accesses_unit u1 intervals).convert_age_unit u2 intervals

/-- DamosAccessPattern.effectively_equal (src/_damon.py lines 296-301):
convert both patterns to the (sample_intervals, aggr_intervals) unit pair and
compare all eight fields structurally (the source __eq__, lines 218-226). -/
def DamosAccessPattern.effectively_equal (p other : DamosAccessPattern)
    (intervals : DamonIntervals) : Bool :=
  decide (p.converted_for_units .sample_intervals .aggr_intervals intervals =
    other.converted_for_units .sample_intervals .aggr_intervals intervals)

/-- DamosQuotas (src/_damon.py lines 330-348): time/size budgets per reset
interval plus three per-mille weights, canonically integers. -/
structure DamosQuotas where
  time_ms : ℤ
  sz_bytes : ℤ
  reset_interval_ms : ℤ
  weight_sz_permil : ℤ
  weight_nr_accesses_permil : ℤ
  weight_age_permil : ℤ
deriving DecidableEq, Repr

/-- DamosWatermarks (src/_damon.py lines 396-411): metric name, check interval
in microseconds and three per-mille thresholds. -/
structure DamosWatermarks where
  metric : String
  interval_us : ℤ
  high_permil : ℤ
  mid_permil : ℤ
  low_permil : ℤ
deriving DecidableEq, Repr

/-- DamosFilter (src/_damon.py lines 449-459): name, type tag, optional memcg
path (Python None is modelled as Option.none) and boolean polarity. -/
structure DamosFilter where
  name : String
  filter_type : String
  memcg_path : Option String
  matching : Bool
deriving DecidableEq, Repr

/-- DamosStats (src/_damon.py lines 484-496): runtime statistics attached to a
scheme after a live query. -/
structure DamosStats where
  nr_tried : ℤ
  sz_tried : ℤ
  nr_applied : ℤ
  sz_applied : ℤ
  qt_exceeds : ℤ
deriving DecidableEq, Repr

/-- DamosTriedRegion (src/_damon.py lines 510-520): a region observed by a
schemes-tried-regions query. -/
structure DamosTriedRegion where
  start : ℤ
  end_ : ℤ
  nr_accesses : ℤ
  age : ℤ
deriving DecidableEq, Repr

/-- Damos (src/_damon.py lines 549-572): a scheme with name, access pattern,
action tag, quotas, watermarks, filters and optional runtime stats and tried
regions. -/
structure Damos where
  name : String
  access_pattern : DamosAccessPattern
  action : String
  quotas : DamosQuotas
  watermarks : DamosWatermarks
  filters : List DamosFilter
  stats : Option DamosStats
  tried_regions : Option (List DamosTriedRegion)
deriving DecidableEq, Repr

/-- Damos.effectively_equal (src/_damon.py lines 619-625): access patterns are
compared by effective equality under the given intervals, action, quotas,
watermarks and filters structurally; name, stats and tried_regions are not
compared. -/
def Damos.effectively_equal (s other : Damos) (intervals : DamonIntervals) : Bool :=
  s.access_pattern.effectively_equal other.access_pattern intervals &&
  decide (s.action = other.action) && decide (s.quotas = other.quotas) &&
  decide (s.watermarks = other.watermarks) && decide (s.filters = other.filters)

/-- Modelled from the spec: the numeric results of the `_damo_fmt_str` text
parsers are not in src/.  The default DamosAccessPattern (src/_damon.py lines
158-160) is built from sz_bytes ['min','max'], nr_accesses ['min','max'] in
percent and age ['min','max'] in usec; per spec section 3 it covers the full
range, full frequency (0 to 100 percent) and full age, so 'min' is 0 and
'max' the largest representable value of each dimension. -/
def defaultDamosAccessPattern : DamosAccessPattern :=
  { min_sz_bytes := 0
    max_sz_bytes := 2 ^ 64 - 1
    min_nr_accesses := 0
    max_nr_accesses := 100
    nr_accesses_unit := .percent
    min_age := 0
    max_age := 2 ^ 64 - 1
    age_unit := .usec }

/-- Modelled from the spec: default DamosQuotas (src/_damon.py lines 338-348)
with no limits, where `text_to_ms('max')` from the absent `_damo_fmt_str`
yields the largest representable millisecond count. -/
def defaultDamosQuotas : DamosQuotas :=
  { time_ms := 0
    sz_bytes := 0
    reset_interval_ms := 2 ^ 64 - 1
    weight_sz_permil := 0
    weight_nr_accesses_permil := 0
    weight_age_permil := 0 }

/-- Default DamosWatermarks (src/_damon.py lines 404-411): metric 'none', zero
interval and zero thresholds. -/
def defaultDamosWatermarks : DamosWatermarks :=
  { metric := "none"
    interval_us := 0
    high_permil := 0
    mid_permil := 0
    low_permil := 0 }

/-- Default Damos (src/_damon.py lines 560-572): name '0', default access
pattern, action 'stat', default quotas and watermarks, no filters, no stats
and no tried regions; the source comment calls it "for monitoring only by
default". -/
def defaultDamos : Damos :=
  { name := "0"
    access_pattern := defaultDamosAccessPattern
    action := "stat"
    quotas := defaultDamosQuotas
    watermarks := defaultDamosWatermarks
    filters := []
    stats := none
    tried_regions := none }

/-- is_monitoring_scheme (src/_damon.py lines 643-644): a scheme is
monitoring-only iff the default-constructed Damos is effectively equal to it
under the given intervals. -/
def is_monitoring_scheme (scheme : Damos) (intervals : DamonIntervals) : Bool :=
  defaultDamos.effectively_equal scheme intervals

lemma pyInt_intCast (a : ℤ) : pyInt (a : ℚ) = a := by
  unfold pyInt
  split <;> simp

lemma pyInt_mul_div_self (a : ℤ) (g : ℚ) (hg : g ≠ 0) :
    pyInt ((a : ℚ) * g / g) = a := by
  rw [mul_div_assoc, div_self hg, mul_one, pyInt_intCast]

/-- Converting the nr_accesses unit leaves every non-nr_accesses field alone
and stamps the requested unit. -/
lemma convert_nr_accesses_unit_fields (p : DamosAccessPattern)
    (u : NrAccessesUnit) (I : DamonIntervals) :
    (p.convert_nr_accesses_unit u I).nr_accesses_unit = u ∧
    (p.convert_nr_accesses_unit u I).min_age = p.min_age ∧
    (p.convert_nr_accesses_unit u I).max_age = p.max_age ∧
    (p.convert_nr_accesses_unit u I).age_unit = p.age_unit ∧
    (p.convert_nr_accesses_unit u I).min_sz_bytes = p.min_sz_bytes ∧
    (p.convert_nr_accesses_unit u I).max_sz_bytes = p.max_sz_bytes := by
  unfold DamosAccessPattern.convert_nr_accesses_unit
  by_cases h : p.nr_accesses_unit = u
  · simp [h]
  · cases u <;> simp [h]

/-- Converting the age unit leaves every non-age field alone and stamps the
requested unit. -/
lemma convert_age_unit_fields (p : DamosAccessPattern)
    (u : AgeUnit) (I : DamonIntervals) :
    (p.convert_age_unit u I).age_unit = u ∧
    (p.convert_age_unit u I).min_nr_accesses = p.min_nr_accesses ∧
    (p.convert_age_unit u I).max_nr_accesses = p.max_nr_accesses ∧
    (p.convert_age_unit u I).nr_accesses_unit = p.nr_accesses_unit ∧
    (p.convert_age_unit u I).min_sz_bytes = p.min_sz_bytes ∧
    (p.convert_age_unit u I).max_sz_bytes = p.max_sz_bytes := by
  unfold DamosAccessPattern.convert_age_unit
  by_cases h : p.age_unit = u
  · simp [h]
  · cases u <;> simp [h]

/-- Nr-accesses and age conversion act on disjoint fields, so they commute. -/
lemma convert_nr_age_comm (p : DamosAccessPattern) (u1 : NrAccessesUnit)
    (u2 : AgeUnit) (I : DamonIntervals) :
    (p.convert_nr_accesses_unit u1 I).convert_age_unit u2 I =
    (p.convert_age_unit u2 I).convert_nr_accesses_unit u1 I := by
  unfold DamosAccessPattern.convert_nr_accesses_unit DamosAccessPattern.convert_age_unit
  by_cases h1 : p.nr_accesses_unit = u1 <;> by_cases h2 : p.age_unit = u2 <;>
    cases u1 <;> cases u2 <;> simp_all

/-- Re-normalizing to the sample_intervals unit after a conversion agrees with
normalizing directly, except in the lossy sample_intervals-to-percent case. -/
lemma convert_nr_accesses_unit_renorm (p : DamosAccessPattern)
    (u1 : NrAccessesUnit) (I : DamonIntervals)
    (h : ¬(p.nr_accesses_unit = .sample_intervals ∧ u1 = .percent)) :
    (p.convert_nr_accesses_unit u1 I).convert_nr_accesses_unit .sample_intervals I =
    p.convert_nr_accesses_unit .sample_intervals I := by
  by_cases h1 : p.nr_accesses_unit = u1
  · have hp : p.convert_nr_accesses_unit u1 I = p := by
      rw [DamosAccessPattern.convert_nr_accesses_unit, if_pos h1]
    rw [hp]
  · cases u1 with
    | sample_intervals =>
      have hA : (p.convert_nr_accesses_unit .sample_intervals I).nr_accesses_unit =
          .sample_intervals := (convert_nr_accesses_unit_fields p _ I).1
      conv_lhs => rw [DamosAccessPattern.convert_nr_accesses_unit]
      rw [if_pos hA]
    | percent =>
      cases hpu : p.nr_accesses_unit with
      | percent => exact absurd hpu h1
      | sample_intervals => exact absurd ⟨hpu, rfl⟩ h

/-- Re-normalizing to the aggr_intervals age unit after a conversion agrees
with normalizing directly, for a positive aggregation interval. -/
lemma convert_age_unit_renorm (p : DamosAccessPattern) (u2 : AgeUnit)
    (I : DamonIntervals) (ha : 0 < I.aggr) :
    (p.convert_age_unit u2 I).convert_age_unit .aggr_intervals I =
    p.convert_age_unit .aggr_intervals I := by
  by_cases h2 : p.age_unit = u2
  · have hp : p.convert_age_unit u2 I = p := by
      rw [DamosAccessPattern.convert_age_unit.eq_def, if_pos h2]
    rw [hp]
  · cases u2 with
    | aggr_intervals =>
      have hA : (p.convert_age_unit .aggr_intervals I).age_unit =
          .aggr_intervals := (convert_age_unit_fields p _ I).1
      conv_lhs => rw [DamosAccessPattern.convert_age_unit.eq_def]
      rw [if_pos hA]
    | usec =>
      obtain ⟨s1, s2, n1, n2, nu, a1, a2, au⟩ := p
      cases au with
      | usec => exact absurd rfl h2
      | aggr_intervals =>
        have hg : (I.aggr : ℚ) ≠ 0 := by exact_mod_cast ha.ne'
        have e1 : pyInt ((a1 : ℚ) * (I.aggr : ℚ) / (I.aggr : ℚ)) = a1 :=
          pyInt_mul_div_self _ _ hg
        have e2 : pyInt ((a2 : ℚ) * (I.aggr : ℚ) / (I.aggr : ℚ)) = a2 :=
          pyInt_mul_div_self _ _ hg
        simp [DamosAccessPattern.convert_age_unit, e1, e2]

/-- Core effective-equality law: converting a pattern for any unit pair leaves
it effectively equal to the original, as long as the lossy
sample_intervals-to-percent direction is not taken. -/
lemma effectively_equal_converted_for_units (p : DamosAccessPattern)
    (u1 : NrAccessesUnit) (u2 : AgeUnit) (I : DamonIntervals) (ha : 0 < I.aggr)
    (h : ¬(p.nr_accesses_unit = .sample_intervals ∧ u1 = .percent)) :
    p.effectively_equal (p.converted_for_units u1 u2 I) I = true := by
  have hnr : ¬((p.convert_age_unit u2 I).nr_accesses_unit = .sample_intervals ∧
      u1 = .percent) := by
    rw [(convert_age_unit_fields p u2 I).2.2.2.1]
    exact h
  unfold DamosAccessPattern.effectively_equal DamosAccessPattern.converted_for_units
  rw [decide_eq_true_eq]
  rw [convert_nr_age_comm p u1 u2 I]
  rw [convert_nr_accesses_unit_renorm _ _ _ hnr]
  rw [← convert_nr_age_comm]
  rw [convert_age_unit_renorm _ _ _ ha]

/-- Interval set refuting claim C1: sample 1us, aggregation 3us, so the
maximum number of samples per aggregation window is 3. -/
def c1CexIntervals : DamonIntervals := ⟨1, 3, 1000000⟩

/-- Access pattern refuting claim C1: nr_accesses bounds of 1 sample interval. -/
def c1CexPattern : DamosAccessPattern := ⟨0, 0, 1, 1, .sample_intervals, 0, 0, .usec⟩

/-- C1 counterexample: with sample 1us and aggregation 3us (both positive),
the pattern with nr_accesses 1 in sample_intervals unit converted for the
(percent, usec) unit pair becomes 33 percent, which normalizes back to
int(33 * 3 / 100) = 0 sample intervals, so effectively_equal returns false
and the claimed law fails. -/
theorem claim_C1_counterexample :
    0 < c1CexIntervals.sample ∧ 0 < c1CexIntervals.aggr ∧
    c1CexPattern.effectively_equal
      (c1CexPattern.converted_for_units .percent .usec c1CexIntervals)
      c1CexIntervals = false := by
  refine ⟨by norm_num [c1CexIntervals], by norm_num [c1CexIntervals], ?_⟩
  simp +decide only [c1CexIntervals, c1CexPattern,
    DamosAccessPattern.effectively_equal, DamosAccessPattern.converted_for_units,
    DamosAccessPattern.convert_nr_accesses_unit,
    DamosAccessPattern.convert_age_unit, decide_eq_false_iff_not]
  norm_num [pyInt]

/-- C1 amended: for every Access Pattern p, units u1 and u2, and Interval Set
with positive sample and aggregation intervals, the effective-equality law
p.effectively_equal(p.converted_for_units(u1, u2, I), I) holds whenever the
conversion does not take the lossy sample_intervals-to-percent direction,
i.e. unless p is in sample_intervals unit and u1 is percent. -/
theorem claim_C1_amended (p : DamosAccessPattern) (u1 : NrAccessesUnit)
    (u2 : AgeUnit) (I : DamonIntervals) (_hs : 0 < I.sample) (ha : 0 < I.aggr)
    (h : ¬(p.nr_accesses_unit = .sample_intervals ∧ u1 = .percent)) :
    p.effectively_equal (p.converted_for_units u1 u2 I) I = true :=
  effectively_equal_converted_for_units p u1 u2 I ha h

/-- Witness for claim_C1_amended at the default intervals (5ms sample, 100ms
aggregation) and a percent-unit pattern. -/
theorem claim_C1_amended_witness :
    0 < (⟨5000, 100000, 1000000⟩ : DamonIntervals).sample ∧
    0 < (⟨5000, 100000, 1000000⟩ : DamonIntervals).aggr ∧
    ¬((⟨0, 0, 15, 35, .percent, 0, 0, .usec⟩ :
        DamosAccessPattern).nr_accesses_unit = .sample_intervals ∧
      NrAccessesUnit.sample_intervals = .percent) ∧
    DamosAccessPattern.effectively_equal
      ⟨0, 0, 15, 35, .percent, 0, 0, .usec⟩
      (DamosAccessPattern.converted_for_units
        ⟨0, 0, 15, 35, .percent, 0, 0, .usec⟩ .sample_intervals
        .aggr_intervals ⟨5000, 100000, 1000000⟩)
      ⟨5000, 100000, 1000000⟩ = true :=
  ⟨by decide, by decide, by decide,
    claim_C1_amended _ _ _ _ (by decide) (by decide) (by decide)⟩

/-- C6: under every Interval Set with positive sample and aggregation
intervals, the default-constructed Scheme is classified monitoring-only, and
it remains so after its access pattern is converted in place to the
(sample_intervals, aggr_intervals) unit pair. -/
theorem claim_C6 (I : DamonIntervals) (_hs : 0 < I.sample) (ha : 0 < I.aggr) :
    is_monitoring_scheme defaultDamos I = true ∧
    is_monitoring_scheme
      { defaultDamos with
        access_pattern := defaultDamos.access_pattern.converted_for_units
          .sample_intervals .aggr_intervals I } I = true := by
  have hpat := effectively_equal_converted_for_units
    defaultDamos.access_pattern .sample_intervals .aggr_intervals I ha
    (by decide)
  constructor
  · simp [is_monitoring_scheme, Damos.effectively_equal,
      DamosAccessPattern.effectively_equal]
  · simp [is_monitoring_scheme, Damos.effectively_equal, hpat]

/-- Witness for claim_C6 at the default intervals. -/
theorem claim_C6_witness :
    0 < (⟨5000, 100000, 1000000⟩ : DamonIntervals).sample ∧
    0 < (⟨5000, 100000, 1000000⟩ : DamonIntervals).aggr ∧
    is_monitoring_scheme defaultDamos ⟨5000, 100000, 1000000⟩ = true ∧
    is_monitoring_scheme
      { defaultDamos with
        access_pattern := defaultDamos.access_pattern.converted_for_units
          .sample_intervals .aggr_intervals ⟨5000, 100000, 1000000⟩ }
      ⟨5000, 100000, 1000000⟩ = true :=
  ⟨by decide, by decide,
    (claim_C6 _ (by decide) (by decide)).1, (claim_C6 _ (by decide) (by decide)).2⟩

/-- DamonNrRegionsRange (src/_damon.py lines 53-59): minimum and maximum
region counts. -/
structure DamonNrRegionsRange where
  minimum : ℤ
  maximum : ℤ
deriving DecidableEq, Repr

/-- DamonRegion (src/_damon.py lines 84-91): a half-open byte address range. -/
structure DamonRegion where
  start : ℤ
  end_ : ℤ
deriving DecidableEq, Repr

/-- DamonTarget (src/_damon.py lines 110-118): name, optional pid and a list
of explicitly seeded address regions. -/
structure DamonTarget where
  name : String
  pid : Option ℤ
  regions : List DamonRegion
deriving DecidableEq, Repr

/-- DamonRecord (src/_damon.py lines 646-652): legacy record-capture request
with buffer size in bytes and output path. -/
structure DamonRecord where
  rfile_buf : ℤ
  rfile_path : String
deriving DecidableEq, Repr

/-- DamonCtx (src/_damon.py lines 672-690): a monitoring context. -/
structure DamonCtx where
  name : String
  intervals : DamonIntervals
  nr_regions : DamonNrRegionsRange
  ops : String
  targets : List DamonTarget
  schemes : List Damos
  record_request : Option DamonRecord
deriving DecidableEq, Repr

/-- Kdamond (src/_damon.py lines 739-749): name, run state, optional pid and
contexts. -/
structure Kdamond where
  name : String
  state : String
  pid : Option ℤ
  contexts : List DamonCtx
deriving DecidableEq, Repr

/-- A value of a key-value mapping produced by to_kvpairs.  Raw-mode numeric
formatting (plain integer text) is modelled by num, a unit-suffixed string
such as '15 %' or '50 aggr_intervals' by numUnit, Python strings by str,
booleans by bool, Python None by nil, and nested lists and ordered dicts by
list and dict. -/
inductive KvVal where
  | num : ℤ → KvVal
  | numUnit : ℤ → String → KvVal
  | str : String → KvVal
  | bool : Bool → KvVal
  | nil : KvVal
  | list : List KvVal → KvVal
  | dict : List (String × KvVal) → KvVal

/-- Lookup of a key in an ordered key-value mapping, Python's kv[key] and
`key in kv`. -/
def kvLookup (kv : List (String × KvVal)) (key : String) : Option KvVal :=
  match kv with
  | [] => none
  | (k, v) :: rest => if k = key then some v else kvLookup rest key

/-- Modelled from the spec: `_damo_fmt_str.text_to_us` is not in src/.  In the
raw serialization mode relevant here its input is a plain number denoting
microseconds (spec section 4.1); any unit-suffixed or non-numeric value is a
parse failure. -/
def text_to_us (v : KvVal) : Option ℤ :=
  match v with
  | .num n => some n
  | _ => none

/-- Modelled from the spec: `_damo_fmt_str.text_to_nr` accepts a plain number
in raw mode. -/
def text_to_nr (v : KvVal) : Option ℤ :=
  match v with
  | .num n => some n
  | _ => none

/-- Modelled from the spec: `_damo_fmt_str.text_to_bytes` accepts a plain
number of bytes in raw mode. -/
def text_to_bytes (v : KvVal) : Option ℤ :=
  match v with
  | .num n => some n
  | _ => none

/-- Modelled from the spec: `_damo_fmt_str.text_to_ms` accepts a plain number
of milliseconds in raw mode. -/
def text_to_ms (v : KvVal) : Option ℤ :=
  match v with
  | .num n => some n
  | _ => none

/-- Modelled from the spec: `_damo_fmt_str.text_to_permil` accepts a plain
per-mille number in raw mode. -/
def text_to_permil (v : KvVal) : Option ℤ :=
  match v with
  | .num n => some n
  | _ => none

/-- Modelled from the spec: `_damo_fmt_str.text_to_percent` accepts a number
with a '%' unit suffix (or a bare number); anything else fails. -/
def text_to_percent (v : KvVal) : Option ℤ :=
  match v with
  | .num n => some n
  | .numUnit n u => if u = "%" then some n else none
  | _ => none

/-- Modelled from the spec: `_damo_fmt_str.text_to_nr_unit` splits a
'number unit' string into the number and the unit word. -/
def text_to_nr_unit (v : KvVal) : Option (ℤ × String) :=
  match v with
  | .numUnit n u => some (n, u)
  | _ => none

/-- Modelled from the spec: `_damo_fmt_str.text_to_bool` of an already-typed
boolean is that boolean. -/
def text_to_bool (v : KvVal) : Option Bool :=
  match v with
  | .bool b => some b
  | _ => none

/-- Modelled from the repository's own unit tests: the default DamonIntervals
(src/_damon.py line 24, via the absent `_damo_fmt_str`) is 5ms sample, 100ms
aggregation and 1s ops update, i.e. (5000, 100000, 1000000) microseconds. -/
def defaultDamonIntervals : DamonIntervals := ⟨5000, 100000, 1000000⟩

/-- Parse helper for a KvVal that must be a Python string. -/
def kvStr (v : KvVal) : Option String :=
  match v with
  | .str s => some s
  | _ => none

/-- Parse helper for a raw attribute that is either a number or Python None. -/
def kvOptInt (v : KvVal) : Option (Option ℤ) :=
  match v with
  | .num n => some (some n)
  | .nil => some none
  | _ => none

/-- Emission helper for an optional integer attribute written as-is. -/
def optIntKv (v : Option ℤ) : KvVal :=
  match v with
  | some n => .num n
  | none => .nil

/-- DamonIntervals.to_kvpairs (src/_damon.py lines 41-47), raw mode. -/
def DamonIntervals.to_kvpairs (x : DamonIntervals) : List (String × KvVal) :=
  [("sample_us", .num x.sample), ("aggr_us", .num x.aggr),
   ("ops_update_us", .num x.ops_update)]

/-- kvpairs_to_DamonIntervals (src/_damon.py lines 49-51). -/
def kvpairs_to_DamonIntervals (kv : List (String × KvVal)) : Option DamonIntervals := do
  let sample ← text_to_us (← kvLookup kv "sample_us")
  let aggr ← text_to_us (← kvLookup kv "aggr_us")
  let ops_update ← text_to_us (← kvLookup kv "ops_update_us")
  pure ⟨sample, aggr, ops_update⟩

/-- DamonNrRegionsRange.to_kvpairs (src/_damon.py lines 72-78), raw mode. -/
def DamonNrRegionsRange.to_kvpairs (x : DamonNrRegionsRange) :
    List (String × KvVal) :=
  [("min", .num x.minimum), ("max", .num x.maximum)]

/-- kvpairs_to_DamonNrRegionsRange (src/_damon.py lines 80-82). -/
def kvpairs_to_DamonNrRegionsRange (kv : List (String × KvVal)) :
    Option DamonNrRegionsRange := do
  let mn ← text_to_nr (← kvLookup kv "min")
  let mx ← text_to_nr (← kvLookup kv "max")
  pure ⟨mn, mx⟩

/-- DamonRegion.to_kvpairs (src/_damon.py lines 102-105), raw mode. -/
def DamonRegion.to_kvpairs (x : DamonRegion) : List (String × KvVal) :=
  [("start", .num x.start), ("end", .num x.end_)]

/-- kvpairs_to_DamonRegion (src/_damon.py lines 107-108). -/
def kvpairs_to_DamonRegion (kv : List (String × KvVal)) : Option DamonRegion := do
  let s ← text_to_bytes (← kvLookup kv "start")
  let e ← text_to_bytes (← kvLookup kv "end")
  pure ⟨s, e⟩

/-- DamonTarget.to_kvpairs (src/_damon.py lines 132-136): name and pid are
emitted as raw attributes, regions as a list of region kvpairs. -/
def DamonTarget.to_kvpairs (x : DamonTarget) : List (String × KvVal) :=
  [("name", .str x.name), ("pid", optIntKv x.pid),
   ("regions", .list (x.regions.map (fun r => .dict r.to_kvpairs)))]

/-- kvpairs_to_DamonTarget (src/_damon.py lines 138-140). -/
def kvpairs_to_DamonTarget (kv : List (String × KvVal)) : Option DamonTarget := do
  let regions ← match kvLookup kv "regions" with
    | some (.list rs) => rs.mapM (fun v =>
        match v with
        | .dict d => kvpairs_to_DamonRegion d
        | _ => none)
    | _ => none
  let name ← kvStr (← kvLookup kv "name")
  let pid ← kvOptInt (← kvLookup kv "pid")
  pure ⟨name, pid, regions⟩

/-- String form of a NrAccessesUnit as emitted by to_kvpairs
(src/_damon.py lines 228-235: percent prints as '%'). -/
def nrAccessesUnitStr (u : NrAccessesUnit) : String :=
  match u with
  | .percent => "%"
  | .sample_intervals => "sample_intervals"

/-- DamosAccessPattern.to_kvpairs (src/_damon.py lines 228-254), raw mode:
sizes as plain numbers, nr_accesses as 'number unit' strings, ages as plain
microsecond numbers for the usec unit and 'number aggr_intervals' otherwise. -/
def DamosAccessPattern.to_kvpairs (x : DamosAccessPattern) :
    List (String × KvVal) :=
  [("min_sz_bytes", .num x.min_sz_bytes),
   ("max_sz_bytes", .num x.max_sz_bytes),
   ("min_nr_accesses", .numUnit x.min_nr_accesses (nrAccessesUnitStr x.nr_accesses_unit)),
   ("max_nr_accesses", .numUnit x.max_nr_accesses (nrAccessesUnitStr x.nr_accesses_unit)),
   ("min_age", match x.age_unit with
     | .usec => .num x.min_age
     | .aggr_intervals => .numUnit x.min_age "aggr_intervals"),
   ("max_age", match x.age_unit with
     | .usec => .num x.max_age
     | .aggr_intervals => .numUnit x.max_age "aggr_intervals")]

/-- kvpairs_to_DamosAccessPattern (src/_damon.py lines 303-328): nr_accesses
values are first tried as percents, then as 'number unit' pairs whose units
must agree; ages are first tried as microseconds, then as 'number unit'
pairs; the DamosAccessPattern constructor then rejects unit words other than
percent/sample_intervals and usec/aggr_intervals. -/
def kvpairs_to_DamosAccessPattern (kv : List (String × KvVal)) :
    Option DamosAccessPattern := do
  let vmin ← kvLookup kv "min_nr_accesses"
  let vmax ← kvLookup kv "max_nr_accesses"
  let (mn, mx, nu) ←
    match text_to_percent vmin, text_to_percent vmax with
    | some a, some b => some (a, b, NrAccessesUnit.percent)
    | _, _ => do
      let (a, u1) ← text_to_nr_unit vmin
      let (b, u2) ← text_to_nr_unit vmax
      if u1 = u2 then
        match u1 with
        | "percent" => some (a, b, NrAccessesUnit.percent)
        | "sample_intervals" => some (a, b, NrAccessesUnit.sample_intervals)
        | _ => none
      else none
  let amin ← kvLookup kv "min_age"
  let amax ← kvLookup kv "max_age"
  let (an, ax, au) ←
    match text_to_us amin, text_to_us amax with
    | some a, some b => some (a, b, AgeUnit.usec)
    | _, _ => do
      let (a, u1) ← text_to_nr_unit amin
      let (b, u2) ← text_to_nr_unit amax
      if u1 = u2 then
        match u1 with
        | "usec" => some (a, b, AgeUnit.usec)
        | "aggr_intervals" => some (a, b, AgeUnit.aggr_intervals)
        | _ => none
      else none
  let szmin ← text_to_bytes (← kvLookup kv "min_sz_bytes")
  let szmax ← text_to_bytes (← kvLookup kv "max_sz_bytes")
  pure ⟨szmin, szmax, mn, mx, nu, an, ax, au⟩

/-- DamosQuotas.to_kvpairs (src/_damon.py lines 374-386), raw mode. -/
def DamosQuotas.to_kvpairs (x : DamosQuotas) : List (String × KvVal) :=
  [("time_ms", .num x.time_ms),
   ("sz_bytes", .num x.sz_bytes),
   ("reset_interval_ms", .num x.reset_interval_ms),
   ("weight_sz_permil", .num x.weight_sz_permil),
   ("weight_nr_accesses_permil", .num x.weight_nr_accesses_permil),
   ("weight_age_permil", .num x.weight_age_permil)]

/-- kvpairs_to_DamosQuotas (src/_damon.py lines 388-391). -/
def kvpairs_to_DamosQuotas (kv : List (String × KvVal)) : Option DamosQuotas := do
  let t ← text_to_ms (← kvLookup kv "time_ms")
  let sz ← text_to_bytes (← kvLookup kv "sz_bytes")
  let ri ← text_to_ms (← kvLookup kv "reset_interval_ms")
  let ws ← text_to_permil (← kvLookup kv "weight_sz_permil")
  let wn ← text_to_permil (← kvLookup kv "weight_nr_accesses_permil")
  let wa ← text_to_permil (← kvLookup kv "weight_age_permil")
  pure ⟨t, sz, ri, ws, wn, wa⟩

/-- DamosWatermarks.to_kvpairs (src/_damon.py lines 432-443), raw mode. -/
def DamosWatermarks.to_kvpairs (x : DamosWatermarks) : List (String × KvVal) :=
  [("metric", .str x.metric),
   ("interval_us", .num x.interval_us),
   ("high_permil", .num x.high_permil),
   ("mid_permil", .num x.mid_permil),
   ("low_permil", .num x.low_permil)]

/-- kvpairs_to_DamosWatermarks (src/_damon.py lines 445-447). -/
def kvpairs_to_DamosWatermarks (kv : List (String × KvVal)) :
    Option DamosWatermarks := do
  let metric ← kvStr (← kvLookup kv "metric")
  let iv ← text_to_us (← kvLookup kv "interval_us")
  let hi ← text_to_permil (← kvLookup kv "high_permil")
  let mid ← text_to_permil (← kvLookup kv "mid_permil")
  let lo ← text_to_permil (← kvLookup kv "low_permil")
  pure ⟨metric, iv, hi, mid, lo⟩

/-- DamosFilter.to_kvpairs (src/_damon.py lines 474-477): all four attributes
emitted as-is. -/
def DamosFilter.to_kvpairs (x : DamosFilter) : List (String × KvVal) :=
  [("name", .str x.name), ("filter_type", .str x.filter_type),
   ("memcg_path", match x.memcg_path with
     | some s => .str s
     | none => .nil),
   ("matching", .bool x.matching)]

/-- kvpairs_to_DamosFilter (src/_damon.py lines 479-482): memcg_path is read
only for memcg-type filters and replaced by the empty string otherwise. -/
def kvpairs_to_DamosFilter (kv : List (String × KvVal)) : Option DamosFilter := do
  let name ← kvStr (← kvLookup kv "name")
  let ftype ← kvStr (← kvLookup kv "filter_type")
  let path ← if ftype = "memcg" then
      match kvLookup kv "memcg_path" with
      | some (.str s) => some (some s)
      | some .nil => some none
      | _ => none
    else
      some (some "")
  let matching ← text_to_bool (← kvLookup kv "matching")
  pure ⟨name, ftype, path, matching⟩

/-- DamonRecord.to_kvpairs (src/_damon.py lines 664-667): both attributes
emitted as-is. -/
def DamonRecord.to_kvpairs (x : DamonRecord) : List (String × KvVal) :=
  [("rfile_buf", .num x.rfile_buf), ("rfile_path", .str x.rfile_path)]

/-- kvpairs_to_DamonRecord (src/_damon.py lines 669-670). -/
def kvpairs_to_DamonRecord (kv : List (String × KvVal)) : Option DamonRecord := do
  let buf ← text_to_bytes (← kvLookup kv "rfile_buf")
  let path ← kvStr (← kvLookup kv "rfile_path")
  pure ⟨buf, path⟩

/-- Damos.to_kvpairs (src/_damon.py lines 607-617): name and action as raw
attributes, then nested access_pattern, quotas, watermarks and the filter
list; stats and tried_regions are not serialized. -/
def Damos.to_kvpairs (x : Damos) : List (String × KvVal) :=
  [("name", .str x.name), ("action", .str x.action),
   ("access_pattern", .dict x.access_pattern.to_kvpairs),
   ("quotas", .dict x.quotas.to_kvpairs),
   ("watermarks", .dict x.watermarks.to_kvpairs),
   ("filters", .list (x.filters.map (fun f => .dict f.to_kvpairs)))]

/-- kvpairs_to_Damos (src/_damon.py lines 627-641): name is required, every
other key falls back to the constructor default; stats and tried_regions are
always None. -/
def kvpairs_to_Damos (kv : List (String × KvVal)) : Option Damos := do
  let filters ← match kvLookup kv "filters" with
    | some (.list fs) => fs.mapM (fun v =>
        match v with
        | .dict d => kvpairs_to_DamosFilter d
        | _ => none)
    | some _ => none
    | none => some []
  let name ← kvStr (← kvLookup kv "name")
  let access_pattern ← match kvLookup kv "access_pattern" with
    | some (.dict d) => kvpairs_to_DamosAccessPattern d
    | some _ => none
    | none => some defaultDamosAccessPattern
  let action ← match kvLookup kv "action" with
    | some v => kvStr v
    | none => some "stat"
  let quotas ← match kvLookup kv "quotas" with
    | some (.dict d) => kvpairs_to_DamosQuotas d
    | some _ => none
    | none => some defaultDamosQuotas
  let watermarks ← match kvLookup kv "watermarks" with
    | some (.dict d) => kvpairs_to_DamosWatermarks d
    | some _ => none
    | none => some defaultDamosWatermarks
  pure ⟨name, access_pattern, action, quotas, watermarks, filters, none, none⟩

/-- DamonCtx.to_kvpairs (src/_damon.py lines 710-720): fixed key order with
nested intervals, nr_regions, targets and schemes; record_request is emitted
only when present. -/
def DamonCtx.to_kvpairs (x : DamonCtx) : List (String × KvVal) :=
  [("name", .str x.name),
   ("intervals", .dict x.intervals.to_kvpairs),
   ("nr_regions", .dict x.nr_regions.to_kvpairs),
   ("ops", .str x.ops),
   ("targets", .list (x.targets.map (fun t => .dict t.to_kvpairs))),
   ("schemes", .list (x.schemes.map (fun s => .dict s.to_kvpairs)))] ++
  (match x.record_request with
   | some r => [("record_request", .dict r.to_kvpairs)]
   | none => [])

/-- kvpairs_to_DamonCtx (src/_damon.py lines 722-734): name, ops and targets
are required; intervals and schemes have defaults; a missing nr_regions key
is a failure (the source's fallback names a misspelled constructor and would
raise NameError); record_request is parsed when present. -/
def kvpairs_to_DamonCtx (kv : List (String × KvVal)) : Option DamonCtx := do
  let name ← kvStr (← kvLookup kv "name")
  let intervals ← match kvLookup kv "intervals" with
    | some (.dict d) => kvpairs_to_DamonIntervals d
    | some _ => none
    | none => some defaultDamonIntervals
  let nr_regions ← match kvLookup kv "nr_regions" with
    | some (.dict d) => kvpairs_to_DamonNrRegionsRange d
    | _ => none
  let ops ← kvStr (← kvLookup kv "ops")
  let targets ← match kvLookup kv "targets" with
    | some (.list ts) => ts.mapM (fun v =>
        match v with
        | .dict d => kvpairs_to_DamonTarget d
        | _ => none)
    | _ => none
  let schemes ← match kvLookup kv "schemes" with
    | some (.list ss) => ss.mapM (fun v =>
        match v with
        | .dict d => kvpairs_to_Damos d
        | _ => none)
    | some _ => none
    | none => some []
  let record_request ← match kvLookup kv "record_request" with
    | some (.dict d) => (kvpairs_to_DamonRecord d).map some
    | some _ => none
    | none => some none
  pure ⟨name, intervals, nr_regions, ops, targets, schemes, record_request⟩

/-- Kdamond.to_kvpairs (src/_damon.py lines 767-773). -/
def Kdamond.to_kvpairs (x : Kdamond) : List (String × KvVal) :=
  [("name", .str x.name), ("state", .str x.state), ("pid", optIntKv x.pid),
   ("contexts", .list (x.contexts.map (fun c => .dict c.to_kvpairs)))]

/-- kvpairs_to_Kdamond (src/_damon.py lines 775-779): name and contexts are
required, state defaults to 'off' and pid to None. -/
def kvpairs_to_Kdamond (kv : List (String × KvVal)) : Option Kdamond := do
  let name ← kvStr (← kvLookup kv "name")
  let state ← match kvLookup kv "state" with
    | some v => kvStr v
    | none => some "off"
  let pid ← match kvLookup kv "pid" with
    | some v => kvOptInt v
    | none => some none
  let contexts ← match kvLookup kv "contexts" with
    | some (.list cs) => cs.mapM (fun v =>
        match v with
        | .dict d => kvpairs_to_DamonCtx d
        | _ => none)
    | _ => none
  pure ⟨name, state, pid, contexts⟩

lemma rt_DamonIntervals (x : DamonIntervals) :
    kvpairs_to_DamonIntervals x.to_kvpairs = some x := rfl

lemma rt_DamonNrRegionsRange (x : DamonNrRegionsRange) :
    kvpairs_to_DamonNrRegionsRange x.to_kvpairs = some x := rfl

lemma rt_DamonRegion (x : DamonRegion) :
    kvpairs_to_DamonRegion x.to_kvpairs = some x := rfl

lemma rt_DamosQuotas (x : DamosQuotas) :
    kvpairs_to_DamosQuotas x.to_kvpairs = some x := rfl

lemma rt_DamosWatermarks (x : DamosWatermarks) :
    kvpairs_to_DamosWatermarks x.to_kvpairs = some x := rfl

lemma rt_DamonRecord (x : DamonRecord) :
    kvpairs_to_DamonRecord x.to_kvpairs = some x := rfl

lemma rt_DamosAccessPattern (x : DamosAccessPattern) :
    kvpairs_to_DamosAccessPattern x.to_kvpairs = some x := by
  obtain ⟨s1, s2, n1, n2, nu, a1, a2, au⟩ := x
  cases nu <;> cases au <;> rfl

lemma rt_DamosFilter (x : DamosFilter)
    (h : x.filter_type = "memcg" ∨ x.memcg_path = some "") :
    kvpairs_to_DamosFilter x.to_kvpairs = some x := by
  obtain ⟨n, ft, mp, m⟩ := x
  by_cases hm : ft = "memcg"
  · subst hm
    cases mp <;> rfl
  · have hp : mp = some "" := by
      rcases h with h1 | h2
      · exact absurd h1 hm
      · exact h2
    subst hp
    simp only [kvpairs_to_DamosFilter, DamosFilter.to_kvpairs, kvLookup]
    simp [kvStr, text_to_bool, hm]

/-- Parsing a list of serialized dictionaries recovers the original list when
each element round-trips. -/
lemma mapM_dict_roundtrip {α : Type} (f : List (String × KvVal) → Option α)
    (g : α → List (String × KvVal)) (l : List α)
    (h : ∀ x ∈ l, f (g x) = some x) :
    (l.map (fun x => KvVal.dict (g x))).mapM (fun v =>
      match v with
      | KvVal.dict d => f d
      | _ => none) = some l := by
  induction l with
  | nil => rfl
  | cons a t ih =>
    simp only [List.map_cons, List.mapM_cons]
    rw [h a (List.mem_cons_self a t), ih (fun x hx => h x (List.mem_cons_of_mem a hx))]
    rfl

lemma rt_DamonTarget (x : DamonTarget) :
    kvpairs_to_DamonTarget x.to_kvpairs = some x := by
  obtain ⟨n, p, rs⟩ := x
  simp +decide only [DamonTarget.to_kvpairs, kvpairs_to_DamonTarget, kvLookup, ite_true, ite_false]
  rw [show (List.mapM (fun v =>
      match v with
      | KvVal.dict d => kvpairs_to_DamonRegion d
      | _ => none) (rs.map (fun r => KvVal.dict r.to_kvpairs))) = some rs from
    mapM_dict_roundtrip _ _ rs (fun r _ => rt_DamonRegion r)]
  cases p <;> rfl

/-- A filter round-trips structurally unless it is a non-memcg filter whose
memcg_path is not the empty string (deserialization normalizes those to ''). -/
def damosFilterOk (f : DamosFilter) : Prop :=
  f.filter_type = "memcg" ∨ f.memcg_path = some ""

/-- A scheme round-trips structurally when it carries no runtime stats or
tried-regions data and all its filters round-trip. -/
def damosOk (s : Damos) : Prop :=
  s.stats = none ∧ s.tried_regions = none ∧ ∀ f ∈ s.filters, damosFilterOk f

/-- A context round-trips structurally when all its schemes do. -/
def damonCtxOk (c : DamonCtx) : Prop := ∀ s ∈ c.schemes, damosOk s

/-- A kdamond round-trips structurally when all its contexts do. -/
def kdamondOk (k : Kdamond) : Prop := ∀ c ∈ k.contexts, damonCtxOk c

lemma rt_Damos (x : Damos) (h : damosOk x) :
    kvpairs_to_Damos x.to_kvpairs = some x := by
  obtain ⟨nm, ap, ac, q, w, fs, st, tr⟩ := x
  obtain ⟨hst, htr, hfs⟩ := h
  simp only at hst htr
  subst hst htr
  simp +decide only [Damos.to_kvpairs, kvpairs_to_Damos, kvLookup, ite_true,
    ite_false]
  rw [show (List.mapM (fun v =>
      match v with
      | KvVal.dict d => kvpairs_to_DamosFilter d
      | _ => none) (fs.map (fun f => KvVal.dict f.to_kvpairs))) = some fs from
    mapM_dict_roundtrip _ _ fs (fun f hf => rt_DamosFilter f (hfs f hf))]
  rw [rt_DamosAccessPattern ap, rt_DamosQuotas q, rt_DamosWatermarks w]
  rfl

lemma rt_DamonCtx (x : DamonCtx) (h : damonCtxOk x) :
    kvpairs_to_DamonCtx x.to_kvpairs = some x := by
  obtain ⟨nm, iv, nr, ops, ts, ss, rr⟩ := x
  have hts : List.mapM (fun v =>
      match v with
      | KvVal.dict d => kvpairs_to_DamonTarget d
      | _ => none) (ts.map (fun t => KvVal.dict t.to_kvpairs)) = some ts :=
    mapM_dict_roundtrip _ _ ts (fun t _ => rt_DamonTarget t)
  have hss : List.mapM (fun v =>
      match v with
      | KvVal.dict d => kvpairs_to_Damos d
      | _ => none) (ss.map (fun s => KvVal.dict s.to_kvpairs)) = some ss :=
    mapM_dict_roundtrip _ _ ss (fun s hs => rt_Damos s (h s hs))
  cases rr with
  | none =>
    simp +decide only [DamonCtx.to_kvpairs, kvpairs_to_DamonCtx, kvLookup,
      ite_true, ite_false, List.append_nil]
    rw [hts, hss, rt_DamonIntervals iv, rt_DamonNrRegionsRange nr]
    rfl
  | some r =>
    simp +decide only [DamonCtx.to_kvpairs, kvpairs_to_DamonCtx, kvLookup,
      ite_true, ite_false, List.cons_append, List.nil_append,
      List.append_assoc]
    rw [hts, hss, rt_DamonIntervals iv, rt_DamonNrRegionsRange nr,
      rt_DamonRecord r]
    rfl

lemma rt_Kdamond (x : Kdamond) (h : kdamondOk x) :
    kvpairs_to_Kdamond x.to_kvpairs = some x := by
  obtain ⟨nm, st, p, cs⟩ := x
  simp +decide only [Kdamond.to_kvpairs, kvpairs_to_Kdamond, kvLookup,
    ite_true, ite_false]
  rw [show (List.mapM (fun v =>
      match v with
      | KvVal.dict d => kvpairs_to_DamonCtx d
      | _ => none) (cs.map (fun c => KvVal.dict c.to_kvpairs))) = some cs from
    mapM_dict_roundtrip _ _ cs (fun c hc => rt_DamonCtx c (h c hc))]
  cases p <;> rfl

/-- Scheme refuting claim C5: identical to the default scheme except that it
carries runtime stats, which to_kvpairs does not serialize. -/
def c5CexDamos : Damos :=
  { defaultDamos with stats := some ⟨1, 2, 3, 4, 5⟩ }

/-- C5 counterexample: a Scheme carrying runtime stats does not round-trip
structurally through raw kvpairs serialization, because to_kvpairs omits
stats and from_kvpairs always rebuilds the scheme with stats = None. -/
theorem claim_C5_counterexample :
    kvpairs_to_Damos c5CexDamos.to_kvpairs ≠ some c5CexDamos := by decide

/-- C5 amended: from_kvpairs inverts raw-mode to_kvpairs structurally for
every composite type, provided schemes carry no runtime stats or
tried-regions data and every non-memcg filter has an empty memcg_path (such
data is dropped or normalized by the serialization). -/
theorem claim_C5_amended :
    (∀ x : DamonIntervals, kvpairs_to_DamonIntervals x.to_kvpairs = some x) ∧
    (∀ x : DamonNrRegionsRange,
      kvpairs_to_DamonNrRegionsRange x.to_kvpairs = some x) ∧
    (∀ x : DamonRegion, kvpairs_to_DamonRegion x.to_kvpairs = some x) ∧
    (∀ x : DamonTarget, kvpairs_to_DamonTarget x.to_kvpairs = some x) ∧
    (∀ x : DamosAccessPattern,
      kvpairs_to_DamosAccessPattern x.to_kvpairs = some x) ∧
    (∀ x : DamosQuotas, kvpairs_to_DamosQuotas x.to_kvpairs = some x) ∧
    (∀ x : DamosWatermarks, kvpairs_to_DamosWatermarks x.to_kvpairs = some x) ∧
    (∀ x : DamosFilter, damosFilterOk x →
      kvpairs_to_DamosFilter x.to_kvpairs = some x) ∧
    (∀ x : Damos, damosOk x → kvpairs_to_Damos x.to_kvpairs = some x) ∧
    (∀ x : DamonCtx, damonCtxOk x → kvpairs_to_DamonCtx x.to_kvpairs = some x) ∧
    (∀ x : Kdamond, kdamondOk x → kvpairs_to_Kdamond x.to_kvpairs = some x) :=
  ⟨rt_DamonIntervals, rt_DamonNrRegionsRange, rt_DamonRegion, rt_DamonTarget,
   rt_DamosAccessPattern, rt_DamosQuotas, rt_DamosWatermarks, rt_DamosFilter,
   rt_Damos, rt_DamonCtx, rt_Kdamond⟩

/-- Kdamond witnessing claim_C5_amended: one context holding one seeded
target, one pageout scheme with a memcg filter, and a record request. -/
def c5WitnessKdamond : Kdamond :=
  { name := "kd"
    state := "off"
    pid := some 123
    contexts := [
      { name := "ctx"
        intervals := ⟨5000, 100000, 1000000⟩
        nr_regions := ⟨10, 1000⟩
        ops := "paddr"
        targets := [⟨"t0", some 42, [⟨4096, 8192⟩]⟩]
        schemes := [
          { name := "s0"
            access_pattern := ⟨123, 4567, 3, 2000, .sample_intervals, 50,
              1900, .aggr_intervals⟩
            action := "pageout"
            quotas := ⟨100, 1024, 1000, 80, 76, 24⟩
            watermarks := ⟨"free_mem_rate", 5000000, 800, 500, 200⟩
            filters := [⟨"f0", "memcg", some "/workload", true⟩]
            stats := none
            tried_regions := none }]
        record_request := some ⟨4096, "/root/damon.data"⟩ }] }

/-- Witness for claim_C5_amended at a fully populated Kdamond. -/
theorem claim_C5_amended_witness :
    kdamondOk c5WitnessKdamond ∧
    kvpairs_to_Kdamond c5WitnessKdamond.to_kvpairs = some c5WitnessKdamond :=
  ⟨by unfold kdamondOk damonCtxOk damosOk damosFilterOk; decide,
   (claim_C5_amended.2.2.2.2.2.2.2.2.2.2) c5WitnessKdamond
     (by unfold kdamondOk damonCtxOk damosOk damosFilterOk; decide)⟩

/-- DAMONRegion (src/_damon_result.py lines 27-37): an observed region with an
access count and an optional age (absent in the binary record format). -/
structure DAMONRegion where
  start : ℤ
  end_ : ℤ
  nr_accesses : ℤ
  age : Option ℤ
deriving DecidableEq, Repr

/-- DAMONSnapshot (src/_damon_result.py lines 39-49): one observation window
for one target.  Decoded start times may be absent (None) and inferred start
times are fractional, so start_time is an optional rational; end times always
carry a number. -/
structure DAMONSnapshot where
  start_time : Option ℚ
  end_time : ℚ
  target_id : ℤ
  regions : List DAMONRegion
deriving DecidableEq, Repr

instance : Inhabited DAMONSnapshot := ⟨⟨none, 0, 0, []⟩⟩

/-- DAMONResult (src/_damon_result.py lines 51-58): overall time range and
snapshot count plus the per-target snapshot sequences; Python's
insertion-ordered dict is modelled as an association list. -/
structure DAMONResult where
  start_time : Option ℚ
  end_time : Option ℚ
  nr_snapshots : Option ℕ
  target_snapshots : List (ℤ × List DAMONSnapshot)
deriving DecidableEq, Repr

/-- regions_intersect (src/_damon_result.py lines 329-330): two regions
overlap iff neither ends at or before the other starts. -/
def regions_intersect (r1 r2 : DAMONRegion) : Bool :=
  !(decide (r1.end_ ≤ r2.start) || decide (r2.end_ ≤ r1.start))

/-- First region of the accumulator (with its position) intersecting the
inserted region, as found by the `for r in regions` scan of add_region.  The
position stands for the object identity that the source uses as dict key. -/
def findIntersecting : List DAMONRegion → DAMONRegion → ℕ → Option (ℕ × DAMONRegion)
  | [], _, _ => none
  | r :: rest, region, i =>
    if regions_intersect r region then some (i, r)
    else findIntersecting rest region (i + 1)

lemma findIntersecting_some {l : List DAMONRegion} {region : DAMONRegion}
    {i j : ℕ} {r : DAMONRegion} (h : findIntersecting l region i = some (j, r)) :
    regions_intersect r region = true := by
  induction l generalizing i with
  | nil => exact absurd h (by simp [findIntersecting])
  | cons a t ih =>
    rw [findIntersecting] at h
    by_cases ha : regions_intersect a region = true
    · rw [if_pos ha] at h
      cases h
      exact ha
    · rw [if_neg ha] at h
      exact ih h

lemma findIntersecting_none {l : List DAMONRegion} {region : DAMONRegion}
    {i : ℕ} (h : findIntersecting l region i = none) :
    ∀ r ∈ l, regions_intersect r region = false := by
  induction l generalizing i with
  | nil => simp
  | cons a t ih =>
    rw [findIntersecting] at h
    by_cases ha : regions_intersect a region = true
    · rw [if_pos ha] at h
      exact absurd h (by simp)
    · rw [if_neg ha] at h
      intro r hr
      rcases List.mem_cons.mp hr with hr1 | hr2
      · subst hr1
        simpa using ha
      · exact ih h r hr2

/-- Pending increment recorded for accumulator position i (the
`nr_acc_to_add` dict keyed by region object). -/
def accGet (acc : List (ℕ × ℤ)) (i : ℕ) : ℤ :=
  match acc.lookup i with
  | some v => v
  | none => 0

/-- nr_acc_to_add update of add_region (src/_damon_result.py lines 335-337):
the pending increment of the hit region becomes the max of its previous value
(0 when absent) and the inserted region's access count. -/
def accAdd (acc : List (ℕ × ℤ)) (i : ℕ) (v : ℤ) : List (ℕ × ℤ) :=
  (i, max (accGet acc i) v) :: acc

/-- add_region (src/_damon_result.py lines 332-350): insert a region into the
accumulator.  On the first intersecting accumulator region, record the
pending max increment and recursively insert the non-overlapping remainders
before and after it; without an intersection, append the region. -/
def add_region (regions : List DAMONRegion) (region : DAMONRegion)
    (nr_acc_to_add : List (ℕ × ℤ)) : List DAMONRegion × List (ℕ × ℤ) :=
  match hf : findIntersecting regions region 0 with
  | none => (regions ++ [region], nr_acc_to_add)
  | some (i, r) =>
    let acc1 := accAdd nr_acc_to_add i region.nr_accesses
    if h1 : region.start < r.start then
      if h2 : r.end_ < region.end_ then
        let res1 := add_region regions
          ⟨region.start, r.start, region.nr_accesses, region.age⟩ acc1
        add_region res1.1 ⟨r.end_, region.end_, region.nr_accesses, region.age⟩
          res1.2
      else
        add_region regions ⟨region.start, r.start, region.nr_accesses, region.age⟩
          acc1
    else
      if h2 : r.end_ < region.end_ then
        add_region regions ⟨r.end_, region.end_, region.nr_accesses, region.age⟩
          acc1
      else
        (regions, acc1)
termination_by (region.end_ - region.start).toNat
decreasing_by
  all_goals
    have hint := findIntersecting_some hf
    simp only [regions_intersect, Bool.not_eq_eq_eq_not, Bool.not_true,
      Bool.or_eq_false_iff, decide_eq_false_iff_not, not_le] at hint
    try dsimp only
    omega

/-- Deferred application of the pending increments after one input snapshot
(src/_damon_result.py lines 362-363), realized positionally: position i of
the accumulator gains its recorded pending increment (0 when none). -/
def apply_nr_acc : ℕ → List DAMONRegion → List (ℕ × ℤ) → List DAMONRegion
  | _, [], _ => []
  | i, r :: rest, acc =>
    { r with nr_accesses := r.nr_accesses + accGet acc i } ::
      apply_nr_acc (i + 1) rest acc

/-- One pass of the aggregate_snapshots loop (src/_damon_result.py lines
354-363): insert every region of the snapshot with a fresh nr_acc_to_add,
then apply the pending increments once. -/
def aggregate_pass (new_regions : List DAMONRegion)
    (snapshot : DAMONSnapshot) : List DAMONRegion :=
  let st := snapshot.regions.foldl
    (fun st reg => add_region st.1 reg st.2) (new_regions, ([] : List (ℕ × ℤ)))
  apply_nr_acc 0 st.1 st.2

/-- aggregate_snapshots (src/_damon_result.py lines 352-368).  The source
indexes snapshots[0] and snapshots[-1], which raises IndexError on an empty
input, modelled by none. -/
def aggregate_snapshots (snapshots : List DAMONSnapshot) : Option DAMONSnapshot :=
  match snapshots with
  | [] => none
  | s0 :: rest =>
    let new_regions := (s0 :: rest).foldl aggregate_pass []
    some { start_time := s0.start_time
           end_time := (List.getLast (s0 :: rest) (List.cons_ne_nil s0 rest)).end_time
           target_id := s0.target_id
           regions := new_regions }

/-- Membership in the increment application preserves region geometry. -/
lemma mem_apply_nr_acc {b : DAMONRegion} :
    ∀ {i : ℕ} {l : List DAMONRegion} {acc : List (ℕ × ℤ)},
    b ∈ apply_nr_acc i l acc → ∃ c ∈ l, b.start = c.start ∧ b.end_ = c.end_ := by
  intro i l
  induction l generalizing i with
  | nil => intro acc h; simp [apply_nr_acc] at h
  | cons a t ih =>
    intro acc h
    rw [apply_nr_acc] at h
    rcases List.mem_cons.mp h with h1 | h2
    · exact ⟨a, List.mem_cons_self a t, by rw [h1], by rw [h1]⟩
    · obtain ⟨c, hc, hs, he⟩ := ih h2
      exact ⟨c, List.mem_cons_of_mem a hc, hs, he⟩

/-- Region intersection only depends on the start and end addresses. -/
lemma regions_intersect_congr {a b a' b' : DAMONRegion}
    (hsa : a.start = a'.start) (hea : a.end_ = a'.end_)
    (hsb : b.start = b'.start) (heb : b.end_ = b'.end_) :
    regions_intersect a b = regions_intersect a' b' := by
  simp [regions_intersect, hsa, hea, hsb, heb]

/-- Applying the deferred increments keeps the accumulator pairwise
non-overlapping. -/
lemma apply_nr_acc_pairwise :
    ∀ (i : ℕ) (acc : List (ℕ × ℤ)) (l : List DAMONRegion),
    l.Pairwise (fun a b => regions_intersect a b = false) →
    (apply_nr_acc i l acc).Pairwise (fun a b => regions_intersect a b = false) := by
  intro i acc l
  induction l generalizing i with
  | nil => intro _; simp [apply_nr_acc]
  | cons a t ih =>
    intro h
    rw [List.pairwise_cons] at h
    rw [apply_nr_acc]
    refine List.Pairwise.cons ?_ (ih (i + 1) h.2)
    intro b hb
    obtain ⟨c, hc, hs, he⟩ := mem_apply_nr_acc hb
    have hac := h.1 c hc
    simp only [regions_intersect] at hac ⊢
    rw [hs, he]
    exact hac

/-- add_region keeps the accumulator pairwise non-overlapping. -/
lemma add_region_pairwise :
    ∀ (regions : List DAMONRegion) (region : DAMONRegion)
      (nr_acc_to_add : List (ℕ × ℤ)),
    regions.Pairwise (fun a b => regions_intersect a b = false) →
    (add_region regions region nr_acc_to_add).1.Pairwise
      (fun a b => regions_intersect a b = false) := by
  intro regions region nr_acc_to_add
  induction regions, region, nr_acc_to_add using add_region.induct with
  | case1 regions region acc hf =>
    intro h
    rw [add_region.eq_def, hf]
    rw [List.pairwise_append]
    refine ⟨h, by simp, ?_⟩
    intro a ha b hb
    rw [List.mem_singleton] at hb
    subst hb
    exact findIntersecting_none hf a ha
  | case2 regions region acc i r hf acc1 h1 h2 res1 ihA ihB ihC =>
    intro h
    rw [add_region.eq_def, hf]
    dsimp only
    rw [dif_pos h1, dif_pos h2]
    exact ihC (ihA h)
  | case3 regions region acc i r hf acc1 h1 h2 ih =>
    intro h
    rw [add_region.eq_def, hf]
    dsimp only
    rw [dif_pos h1, dif_neg h2]
    exact ih h
  | case4 regions region acc i r hf acc1 h1 h2 ih =>
    intro h
    rw [add_region.eq_def, hf]
    dsimp only
    rw [dif_neg h1, dif_pos h2]
    exact ih h
  | case5 regions region acc i r hf h1 h2 =>
    intro h
    rw [add_region.eq_def, hf]
    dsimp only
    rw [dif_neg h1, dif_neg h2]
    exact h

/-- Folding add_region over a snapshot's regions keeps the accumulator
pairwise non-overlapping. -/
lemma foldl_add_region_pairwise :
    ∀ (rs : List DAMONRegion) (st : List DAMONRegion × List (ℕ × ℤ)),
    st.1.Pairwise (fun a b => regions_intersect a b = false) →
    ((rs.foldl (fun st reg => add_region st.1 reg st.2) st).1).Pairwise
      (fun a b => regions_intersect a b = false) := by
  intro rs
  induction rs with
  | nil => intro st h; exact h
  | cons r t ih =>
    intro st h
    rw [List.foldl_cons]
    exact ih _ (add_region_pairwise st.1 r st.2 h)

/-- One aggregation pass keeps the accumulator pairwise non-overlapping. -/
lemma aggregate_pass_pairwise (regions : List DAMONRegion)
    (snapshot : DAMONSnapshot)
    (h : regions.Pairwise (fun a b => regions_intersect a b = false)) :
    (aggregate_pass regions snapshot).Pairwise
      (fun a b => regions_intersect a b = false) := by
  unfold aggregate_pass
  exact apply_nr_acc_pairwise _ _ _ (foldl_add_region_pairwise _ _ h)

/-- Folding aggregation passes keeps the accumulator pairwise
non-overlapping. -/
lemma foldl_aggregate_pass_pairwise :
    ∀ (snaps : List DAMONSnapshot) (regions : List DAMONRegion),
    regions.Pairwise (fun a b => regions_intersect a b = false) →
    (snaps.foldl aggregate_pass regions).Pairwise
      (fun a b => regions_intersect a b = false) := by
  intro snaps
  induction snaps with
  | nil => intro regions h; exact h
  | cons s t ih =>
    intro regions h
    rw [List.foldl_cons]
    exact ih _ (aggregate_pass_pairwise regions s h)

/-- C10: whatever snapshot sequence is aggregated, the region list of the
result returned by aggregate_snapshots is pairwise non-overlapping under the
regions_intersect rule. -/
theorem claim_C10 (snapshots : List DAMONSnapshot) (result : DAMONSnapshot)
    (h : aggregate_snapshots snapshots = some result) :
    result.regions.Pairwise (fun a b => regions_intersect a b = false) := by
  cases snapshots with
  | nil => exact absurd h (by simp [aggregate_snapshots])
  | cons s0 rest =>
    rw [aggregate_snapshots] at h
    cases h
    exact foldl_aggregate_pass_pairwise _ _ (by simp)

/-- Snapshot A of the aggregator example: one region [0,10) with count 5. -/
def aggExampleSnapA : DAMONSnapshot := ⟨some 0, 100, 1, [⟨0, 10, 5, none⟩]⟩

/-- Snapshot B of the aggregator example: regions [0,5) with count 2 and
[5,10) with count 4. -/
def aggExampleSnapB : DAMONSnapshot :=
  ⟨some 100, 200, 1, [⟨0, 5, 2, none⟩, ⟨5, 10, 4, none⟩]⟩

set_option maxRecDepth 10000 in
/-- Evaluation of the aggregator on the documented two-snapshot example: the
accumulator keeps the single region [0,10), records pending increment
max(2, 4) = 4 during snapshot B, and applies it once, giving count 9. -/
lemma aggregate_example_eval :
    aggregate_snapshots [aggExampleSnapA, aggExampleSnapB] =
      some ⟨some 0, 200, 1, [⟨0, 10, 9, none⟩]⟩ := by
  have s1 : add_region [] ⟨0, 10, 5, none⟩ [] = ([⟨0, 10, 5, none⟩], []) := by
    rw [add_region.eq_def]
    simp [findIntersecting]
  have s2 : add_region [⟨0, 10, 5, none⟩] ⟨0, 5, 2, none⟩ [] =
      ([⟨0, 10, 5, none⟩], [(0, 2)]) := by
    rw [add_region.eq_def]
    simp +decide [findIntersecting, regions_intersect, accAdd, accGet]
  have s3 : add_region [⟨0, 10, 5, none⟩] ⟨5, 10, 4, none⟩ [(0, 2)] =
      ([⟨0, 10, 5, none⟩], [(0, 4), (0, 2)]) := by
    rw [add_region.eq_def]
    simp +decide [findIntersecting, regions_intersect, accAdd, accGet]
  simp +decide [aggregate_snapshots, aggregate_pass, s1, s2, s3, accGet,
    apply_nr_acc, aggExampleSnapA, aggExampleSnapB]

/-- C3: aggregating the example snapshots A ([0,10):5) and B ([0,5):2,
[5,10):4) yields a snapshot whose region list is exactly [0,10) with final
access count 9. -/
theorem claim_C3 :
    aggregate_snapshots [aggExampleSnapA, aggExampleSnapB] =
      some ⟨some 0, 200, 1, [⟨0, 10, 9, none⟩]⟩ :=
  aggregate_example_eval

/-- C4 counterexample: aggregate_snapshots fails on the empty snapshot
sequence, because the source indexes snapshots[0] and snapshots[-1], which
raises IndexError there. -/
theorem claim_C4_counterexample : aggregate_snapshots [] = none := rfl

/-- C4 amended: for every non-empty snapshot sequence, aggregate_snapshots
returns a defined result snapshot, whatever the region geometry. -/
theorem claim_C4_amended (snapshots : List DAMONSnapshot)
    (h : snapshots ≠ []) : (aggregate_snapshots snapshots).isSome = true := by
  cases snapshots with
  | nil => exact absurd rfl h
  | cons s0 rest => rfl

/-- Witness for claim_C4_amended at a one-snapshot input with overlapping,
zero-length and out-of-order regions. -/
theorem claim_C4_amended_witness :
    ([(⟨none, 7, 0, [⟨5, 3, 1, none⟩, ⟨0, 9, 2, some 1⟩, ⟨4, 4, 3, none⟩]⟩ :
        DAMONSnapshot)] ≠ []) ∧
    (aggregate_snapshots
      [⟨none, 7, 0, [⟨5, 3, 1, none⟩, ⟨0, 9, 2, some 1⟩, ⟨4, 4, 3, none⟩]⟩]).isSome
      = true :=
  ⟨by simp, claim_C4_amended _ (by simp)⟩

/-- Witness for claim_C10 at the two-snapshot aggregator example. -/
theorem claim_C10_witness :
    aggregate_snapshots [aggExampleSnapA, aggExampleSnapB] =
      some ⟨some 0, 200, 1, [⟨0, 10, 9, none⟩]⟩ ∧
    List.Pairwise (fun a b => regions_intersect a b = false)
      (DAMONSnapshot.regions ⟨some 0, 200, 1, [⟨0, 10, 9, none⟩]⟩) :=
  ⟨aggregate_example_eval, claim_C10 _ _ aggregate_example_eval⟩

/-- The marker token of an aggregated-snapshot trace line
(src/_damon_result.py line 149). -/
def damon_aggregated_marker : String := "damon:damon_aggregated:"

/-- Parser state of perf_script_to_damon_result (src/_damon_result.py lines
124-194): the result built so far (None until the first parsed line), the
global count of regions read within the current snapshot, and the end time of
the first parsed line. -/
structure PerfParseState where
  result : Option DAMONResult
  nr_read_regions : ℕ
  parse_start_time : Option ℤ
deriving DecidableEq, Repr

/-- Outcome of one loop iteration: continue with the next line, or break out
of the loop (the max_secs time budget). -/
inductive PerfStep where
  | cont (st : PerfParseState)
  | halt (st : PerfParseState)
deriving DecidableEq, Repr

/-- Decimal literal parser standing in for Python float(); handles the
'seconds.fraction' timestamps of trace lines exactly over the rationals. -/
def parseDecimal (s : String) : Option ℚ :=
  match s.splitOn "." with
  | [a] => (a.toInt?).map (fun n => (n : ℚ))
  | [a, b] => do
    let ia ← a.toInt?
    let nb ← b.toNat?
    let frac : ℚ := (nb : ℚ) / ((10 : ℚ) ^ b.length)
    pure (if a.startsWith "-" then (ia : ℚ) - frac else (ia : ℚ) + frac)
  | _ => none

/-- In-place update of one target's snapshot list in the association list
modelling the Python dict. -/
def assocSet (l : List (ℤ × List DAMONSnapshot)) (k : ℤ)
    (v : List DAMONSnapshot) : List (ℤ × List DAMONSnapshot) :=
  l.map (fun p => if p.1 = k then (k, v) else p)

/-- Loop body of perf_script_to_damon_result (src/_damon_result.py lines
132-190) on one whitespace-tokenized line.  Lines with a token count other
than 9 or 10, or whose 5th token is not the marker, are skipped; otherwise
the region fields are parsed (None = a raised parse error), the time budget
may break the loop, and the region is appended to the target's current
snapshot, opening a new snapshot whenever the global region count is 0. -/
def perfLineStep (max_secs : Option ℚ) (st : PerfParseState)
    (fields : List String) : Option PerfStep :=
  if fields.length = 9 ∨ fields.length = 10 then
    if fields.getD 4 "" = damon_aggregated_marker then do
      let t ← parseDecimal ((fields.getD 3 "").dropRight 1)
      let end_time : ℤ := pyInt (t * 1000000000)
      let result := match st.result with
        | none => (⟨none, none, none, []⟩ : DAMONResult)
        | some r => r
      let pst ← match st.parse_start_time with
        | none => some end_time
        | some p => some p
      let brk := match st.parse_start_time, max_secs with
        | some p, some m => decide (((end_time - p : ℤ) : ℚ) > m * 1000000000)
        | _, _ => false
      if brk then
        pure (.halt { st with result := some result })
      else do
        let target_id ← (((fields.getD 5 "").splitOn "=").getD 1 "").toInt?
        let ts := result.target_snapshots
        let ts1 := if (ts.lookup target_id).isSome then ts else ts ++ [(target_id, [])]
        let cur := (ts1.lookup target_id).getD []
        let start_time : Option ℚ := match cur.getLast? with
          | none => none
          | some s => some s.end_time
        let nr_regions ← (((fields.getD 6 "").splitOn "=").getD 1 "").toInt?
        let addrs ← (((fields.getD 7 "").dropRight 1).splitOn "-").mapM
          String.toInt?
        let a0 ← addrs.get? 0
        let a1 ← addrs.get? 1
        let nr_accesses ← (fields.getD 8 "").toInt?
        let age ← if fields.length = 10 then
            ((fields.getD 9 "").toInt?).map some
          else
            some (none : Option ℤ)
        let cur1 := if st.nr_read_regions = 0 then
            cur ++ [⟨start_time, (end_time : ℚ), target_id, []⟩]
          else cur
        let snapshot ← cur1.getLast?
        let cur2 := cur1.dropLast ++
          [{ snapshot with regions := snapshot.regions ++ [⟨a0, a1, nr_accesses, age⟩] }]
        let nr1 := st.nr_read_regions + 1
        let nr2 := if (nr1 : ℤ) = nr_regions then 0 else nr1
        pure (.cont ⟨some { result with target_snapshots := assocSet ts1 target_id cur2 },
          nr2, some pst⟩)
    else
      some (.cont st)
  else
    some (.cont st)

/-- The line loop of perf_script_to_damon_result: fold the body over the
lines, stopping at a break and propagating raised errors. -/
def perfRun (max_secs : Option ℚ) : PerfParseState → List (List String) →
    Option PerfParseState
  | st, [] => some st
  | st, l :: ls =>
    match perfLineStep max_secs st l with
    | none => none
    | some (.halt s) => some s
    | some (.cont s) => perfRun max_secs s ls

/-- perf_script_to_damon_result (src/_damon_result.py lines 124-194) on
pre-tokenized lines: run the loop from the empty state and return the built
result (None when no line parsed); the outer Option is a raised error. -/
def perf_script_to_damon_result (lines : List (List String))
    (max_secs : Option ℚ) : Option (Option DAMONResult) :=
  (perfRun max_secs ⟨none, 0, none⟩ lines).map (fun st => st.result)

/-- A line contributes to the result only when it has 9 or 10 whitespace
tokens and its 5th token is the aggregated-snapshot marker. -/
def perfLineShapeOk (fields : List String) : Bool :=
  (decide (fields.length = 9) || decide (fields.length = 10)) &&
  decide (fields.getD 4 "" = damon_aggregated_marker)

lemma perfLineStep_skip (max_secs : Option ℚ) (st : PerfParseState)
    (l : List String) (h : perfLineShapeOk l = false) :
    perfLineStep max_secs st l = some (.cont st) := by
  unfold perfLineShapeOk at h
  unfold perfLineStep
  by_cases h1 : l.length = 9 ∨ l.length = 10
  · rw [if_pos h1]
    have h2 : ¬(l.getD 4 "" = damon_aggregated_marker) := by
      intro hm
      rw [hm] at h
      rcases h1 with h9 | h9 <;> simp [h9] at h
    rw [if_neg h2]
  · rw [if_neg h1]

lemma perfRun_filter (max_secs : Option ℚ) :
    ∀ (lines : List (List String)) (st : PerfParseState),
    perfRun max_secs st lines =
      perfRun max_secs st (lines.filter perfLineShapeOk) := by
  intro lines
  induction lines with
  | nil => intro st; rfl
  | cons l ls ih =>
    intro st
    by_cases hl : perfLineShapeOk l = true
    · rw [List.filter_cons_of_pos hl]
      rw [perfRun, perfRun]
      cases hstep : perfLineStep max_secs st l with
      | none => rfl
      | some s =>
        cases s with
        | halt s1 => rfl
        | cont s1 => exact ih s1
    · rw [List.filter_cons_of_neg (by simpa using hl)]
      rw [perfRun, perfLineStep_skip max_secs st l (by simpa using hl)]
      exact ih st

/-- C8: the text decoder ignores, without error, every line whose token count
is not 9 or 10 or whose 5th token is not the marker: decoding any line
sequence equals decoding its well-shaped sublines only; in particular an
8-token line alone is skipped and produces an empty (None) result. -/
theorem claim_C8 :
    (∀ (lines : List (List String)) (max_secs : Option ℚ),
      perf_script_to_damon_result lines max_secs =
        perf_script_to_damon_result (lines.filter perfLineShapeOk) max_secs) ∧
    perf_script_to_damon_result
      [["kdamond.0", "4452", "[000]", "82877.315633:",
        "damon:damon_aggregated:", "target_id=1", "nr_regions=1",
        "140731667070976-140731668037632:"]] none = some none := by
  constructor
  · intro lines max_secs
    unfold perf_script_to_damon_result
    rw [perfRun_filter]
  · rfl

/-- The 16-byte magic literal 'damon_recfmt_ver' (src/_damon_result.py line
69) as byte values. -/
def magicBytes : List ℕ :=
  [100, 97, 109, 111, 110, 95, 114, 101, 99, 102, 109, 116, 95, 118, 101, 114]

/-- Little-endian value of a byte list. -/
def leNat (bytes : List ℕ) : ℕ :=
  bytes.foldr (fun b acc => b + 256 * acc) 0

/-- struct.unpack of an n-byte unsigned little-endian field from the front of
the stream; fails (raises) when fewer than n bytes remain. -/
def unpackU (data : List ℕ) (n : ℕ) : Option (ℕ × List ℕ) :=
  if data.length < n then none
  else some (leNat (data.take n), data.drop n)

/-- Two's-complement reading of an n-byte value. -/
def toSigned (v : ℕ) (n : ℕ) : ℤ :=
  if v < 2 ^ (8 * n - 1) then (v : ℤ) else (v : ℤ) - 2 ^ (8 * n)

/-- struct.unpack of an n-byte signed little-endian field. -/
def unpackI (data : List ℕ) (n : ℕ) : Option (ℤ × List ℕ) :=
  (unpackU data n).map (fun p => (toSigned p.1 n, p.2))

lemma unpackU_len {data : List ℕ} {n : ℕ} {v : ℕ} {rest : List ℕ}
    (h : unpackU data n = some (v, rest)) :
    rest.length = data.length - n ∧ n ≤ data.length := by
  unfold unpackU at h
  by_cases hl : data.length < n
  · rw [if_pos hl] at h
    exact absurd h (by simp)
  · rw [if_neg hl] at h
    cases h
    exact ⟨by simp, by omega⟩

/-- Region loop of the binary decoder (src/_damon_result.py lines 113-119):
read nr_regions records of 8+8+4 bytes and append them to the snapshot; the
age of a binary-decoded region is None. -/
def readRegions : ℕ → List ℕ → DAMONSnapshot → Option (DAMONSnapshot × List ℕ)
  | 0, data, snap => some (snap, data)
  | (k + 1), data, snap => do
    let (sa, d1) ← unpackU data 8
    let (ea, d2) ← unpackU d1 8
    let (na, d3) ← unpackU d2 4
    readRegions k d3
      { snap with regions := snap.regions ++ [⟨(sa : ℤ), (ea : ℤ), (na : ℤ), none⟩] }

lemma readRegions_len :
    ∀ {k : ℕ} {data : List ℕ} {snap : DAMONSnapshot}
      {out : DAMONSnapshot × List ℕ},
    readRegions k data snap = some out → out.2.length ≤ data.length := by
  intro k
  induction k with
  | zero =>
    intro data snap out h
    cases h
    exact le_refl _
  | succ k ih =>
    intro data snap out h
    rw [readRegions] at h
    cases h1 : unpackU data 8 with
    | none => rw [h1] at h; exact absurd h (by simp)
    | some p1 =>
      rw [h1] at h
      cases h2 : unpackU p1.2 8 with
      | none => simp [h2] at h
      | some p2 =>
        cases h3 : unpackU p2.2 4 with
        | none => simp [h2, h3] at h
        | some p3 =>
          simp only [h2, h3, Option.bind_eq_bind, Option.some_bind] at h
          have e1 := unpackU_len h1
          have e2 := unpackU_len h2
          have e3 := unpackU_len h3
          have := ih h
          omega

/-- Task loop of the binary decoder (src/_damon_result.py lines 98-120): per
task, read the target id (4-byte signed for format version 1, 8-byte unsigned
otherwise), start a snapshot whose start time is the previous snapshot's end
time, read its regions and append it to the target's sequence. -/
def readTargetId (fmt : ℤ) (data : List ℕ) : Option (ℤ × List ℕ) :=
  if fmt = 1 then unpackI data 4
  else (unpackU data 8).map (fun p => ((p.1 : ℤ), p.2))

lemma readTargetId_len {fmt : ℤ} {data : List ℕ} {out : ℤ × List ℕ}
    (h : readTargetId fmt data = some out) : out.2.length ≤ data.length := by
  unfold readTargetId at h
  by_cases hf : fmt = 1
  · rw [if_pos hf] at h
    unfold unpackI at h
    cases hu : unpackU data 4 with
    | none => rw [hu] at h; exact absurd h (by simp)
    | some q =>
      rw [hu] at h
      cases h
      have := unpackU_len hu
      simp only
      omega
  · rw [if_neg hf] at h
    cases hu : unpackU data 8 with
    | none => rw [hu] at h; exact absurd h (by simp)
    | some q =>
      rw [hu] at h
      cases h
      have := unpackU_len hu
      simp only
      omega

def readTasks : ℕ → ℤ → ℤ → DAMONResult → List ℕ → Option (DAMONResult × List ℕ)
  | 0, _, _, result, data => some (result, data)
  | (t + 1), fmt, end_time, result, data => do
    let (target_id, d1) ← readTargetId fmt data
    let ts := result.target_snapshots
    let ts1 := if (ts.lookup target_id).isSome then ts
      else ts ++ [(target_id, [])]
    let cur := (ts1.lookup target_id).getD []
    let start_time : Option ℚ := match cur.getLast? with
      | none => none
      | some s => some s.end_time
    let (nr_regions, d2) ← unpackU d1 4
    let (snap, d3) ← readRegions nr_regions d2
      ⟨start_time, (end_time : ℚ), target_id, []⟩
    readTasks t fmt end_time
      { result with target_snapshots := assocSet ts1 target_id (cur ++ [snap]) } d3

lemma readTasks_len :
    ∀ {t : ℕ} {fmt end_time : ℤ} {result : DAMONResult} {data : List ℕ}
      {out : DAMONResult × List ℕ},
    readTasks t fmt end_time result data = some out →
    out.2.length ≤ data.length := by
  intro t
  induction t with
  | zero =>
    intro fmt end_time result data out h
    cases h
    exact le_refl _
  | succ t ih =>
    intro fmt end_time result data out h
    rw [readTasks] at h
    rw [Option.bind_eq_bind, Option.bind_eq_some] at h
    obtain ⟨⟨tid, d1⟩, h1, h⟩ := h
    dsimp only at h
    rw [Option.bind_eq_bind, Option.bind_eq_some] at h
    obtain ⟨⟨nrr, d2⟩, h2, h⟩ := h
    dsimp only at h
    rw [Option.bind_eq_bind, Option.bind_eq_some] at h
    obtain ⟨⟨snap, d3⟩, h3, h⟩ := h
    dsimp only at h
    have e1 := readTargetId_len h1
    have e2 := unpackU_len h2
    have e3 := readRegions_len h3
    have e4 := ih h
    simp only at e1 e2 e3 e4
    omega

/-- An empty DAMONResult as built by DAMONResult() (src/_damon_result.py
lines 57-58). -/
def emptyDAMONResult : DAMONResult := ⟨none, none, none, []⟩

/-- Record loop of the binary decoder (src/_damon_result.py lines 80-121):
read a 16-byte timestamp (fewer remaining bytes is a clean end of stream,
returning with those bytes consumed), enforce the max_secs budget by
breaking with the 16 bytes un-read (the seek(-16, 1)), then read the task
count and the per-task snapshots and recurse.  The stream is the list of
remaining bytes; a truncated read inside a record is a failure. -/
def recordLoop (fmt : ℤ) (max_secs : Option ℚ) (parse_start : Option ℤ)
    (result : DAMONResult) (data : List ℕ) : Option (DAMONResult × List ℕ) :=
  if h16 : data.length < 16 then some (result, data.drop 16)
  else
    let sec := toSigned (leNat ((data.take 16).take 8)) 8
    let nsec := toSigned (leNat ((data.take 16).drop 8)) 8
    let end_time := sec * 1000000000 + nsec
    let pstFalsy : Bool := match parse_start with
      | none => true
      | some p => decide (p = 0)
    let brk : Bool := match pstFalsy, parse_start, max_secs with
      | false, some p, some m => decide (((end_time - p : ℤ) : ℚ) > m * 1000000000)
      | _, _, _ => false
    if brk then some (result, data)
    else
      let parse_start1 := if pstFalsy then some end_time else parse_start
      match hnt : unpackU (data.drop 16) 4 with
      | none => none
      | some (nr_tasks, d2) =>
        match hrt : readTasks nr_tasks fmt end_time result d2 with
        | none => none
        | some (result2, d3) => recordLoop fmt max_secs parse_start1 result2 d3
termination_by data.length
decreasing_by
  have e1 := unpackU_len hnt
  have e2 := readTasks_len hrt
  simp only [List.length_drop] at e1
  simp only at e2
  omega

/-- record_to_damon_result (src/_damon_result.py lines 60-122).  When no open
stream is handed in, the file is opened and the 16-byte magic is compared: on
a match the next 4 bytes are the signed format version, otherwise the version
is 0 and the loop starts again from offset 0.  When a stream is handed in
with a falsy (None or 0) format version, the error 'fmt_version is not given'
is returned, modelled by none. -/
def record_to_damon_result (file_data : List ℕ) (f : Option (List ℕ))
    (fmt_version : Option ℤ) (max_secs : Option ℚ) :
    Option (DAMONResult × List ℕ × ℤ) :=
  match f with
  | none =>
    if file_data.take 16 = magicBytes then
      match unpackI (file_data.drop 16) 4 with
      | none => none
      | some (v, rest) =>
        (recordLoop v max_secs none emptyDAMONResult rest).map
          (fun p => (p.1, p.2, v))
    else
      (recordLoop 0 max_secs none emptyDAMONResult file_data).map
        (fun p => (p.1, p.2, 0))
  | some stream =>
    match fmt_version with
    | none => none
    | some v =>
      if v = 0 then none
      else
        (recordLoop v max_secs none emptyDAMONResult stream).map
          (fun p => (p.1, p.2, v))

/-- C9: binary header negotiation.  (1) A file starting with the 16-byte magic
has the next 4 bytes read as the signed little-endian format version, and
decoding continues right after them.  (2) A file not starting with the magic
is decoded with version 0 from offset 0, no byte lost.  (3) A decoder handed
an already-open stream without a format version returns the error value. -/
theorem claim_C9 :
    (∀ (v4 rest : List ℕ) (fv : Option ℤ) (ms : Option ℚ), v4.length = 4 →
      record_to_damon_result (magicBytes ++ (v4 ++ rest)) none fv ms =
        (recordLoop (toSigned (leNat v4) 4) ms none emptyDAMONResult rest).map
          (fun p => (p.1, p.2, toSigned (leNat v4) 4))) ∧
    (∀ (data : List ℕ) (fv : Option ℤ) (ms : Option ℚ),
      data.take 16 ≠ magicBytes →
      record_to_damon_result data none fv ms =
        (recordLoop 0 ms none emptyDAMONResult data).map
          (fun p => (p.1, p.2, 0))) ∧
    (∀ (file_data stream : List ℕ) (ms : Option ℚ),
      record_to_damon_result file_data (some stream) none ms = none) := by
  refine ⟨?_, ?_, ?_⟩
  · intro v4 rest fv ms h4
    unfold record_to_damon_result
    have hTake : (magicBytes ++ (v4 ++ rest)).take 16 = magicBytes :=
      List.take_left' rfl
    have hDrop : (magicBytes ++ (v4 ++ rest)).drop 16 = v4 ++ rest :=
      List.drop_left' rfl
    rw [hTake, if_pos rfl, hDrop]
    have hUnpack : unpackI (v4 ++ rest) 4 = some (toSigned (leNat v4) 4, rest) := by
      unfold unpackI unpackU
      rw [if_neg (by simp [h4]), List.take_left' h4, List.drop_left' h4]
      rfl
    rw [hUnpack]
  · intro data fv ms hne
    unfold record_to_damon_result
    rw [if_neg hne]
  · intro file_data stream ms
    rfl

lemma recordLoop_nil (fmt : ℤ) (ms : Option ℚ) (ps : Option ℤ)
    (result : DAMONResult) :
    recordLoop fmt ms ps result [] = some (result, []) := by
  rw [recordLoop.eq_def]
  simp

/-- Witness for claim_C9: a magic-headed file with version bytes 2,0,0,0 and
an empty record section, a single-byte headerless file, and an open stream
without a version. -/
theorem claim_C9_witness :
    record_to_damon_result
        (magicBytes ++ ([2, 0, 0, 0] ++ [])) none none none =
      (recordLoop (toSigned (leNat [2, 0, 0, 0]) 4) none none emptyDAMONResult
        []).map (fun p => (p.1, p.2, toSigned (leNat [2, 0, 0, 0]) 4)) ∧
    record_to_damon_result [7] none none none =
      (recordLoop 0 none none emptyDAMONResult [7]).map
        (fun p => (p.1, p.2, 0)) ∧
    record_to_damon_result [] (some [7]) none none = none :=
  ⟨claim_C9.1 [2, 0, 0, 0] [] none none (by decide),
   claim_C9.2.1 [7] none none (by decide),
   claim_C9.2.2 [] [7] none⟩

/-- Little-endian byte list of a value, fixed width. -/
def leBytes : ℕ → ℕ → List ℕ
  | _, 0 => []
  | v, (k + 1) => v % 256 :: leBytes (v / 256) k

/-- struct.pack of an n-byte unsigned field: out-of-range values raise
struct.error (argument out of range), modelled by none. -/
def packU (v : ℤ) (n : ℕ) : Option (List ℕ) :=
  if 0 ≤ v ∧ v < 2 ^ (8 * n) then some (leBytes v.toNat n) else none

/-- struct.pack of an n-byte signed field. -/
def packI (v : ℤ) (n : ℕ) : Option (List ℕ) :=
  if -(2 ^ (8 * n - 1)) ≤ v ∧ v < 2 ^ (8 * n - 1) then
    some (leBytes (v.emod (2 ^ (8 * n))).toNat n)
  else none

/-- struct.pack requires an integer argument; a fractional time (as produced
by timing normalization) raises, modelled by none. -/
def ratInt (q : ℚ) : Option ℤ :=
  if q.den = 1 then some q.num else none

/-- write_damon_record (src/_damon_result.py lines 256-278): magic, format
version, then nr_snapshots records, each holding for every target the
snapshot at that index: seconds and nanoseconds of the end time as signed
8-byte fields, the task count 1, the target id (4-byte signed for version 1,
8-byte unsigned otherwise), the region count and the regions as
8+8+4-byte unsigned fields. -/
def write_damon_record (result : DAMONResult) (format_version : ℤ) :
    Option (List ℕ) := do
  let vb ← packI format_version 4
  let nr ← result.nr_snapshots
  let body ← (List.range nr).foldlM (fun acc idx =>
    result.target_snapshots.foldlM (fun acc2 t => do
      let snapshot ← t.2.get? idx
      let et ← ratInt snapshot.end_time
      let b1 ← packI (Int.fdiv et 1000000000) 8
      let b2 ← packI (Int.emod et 1000000000) 8
      let b3 ← packU 1 4
      let b4 ← if format_version = 1 then packI t.1 4 else packU t.1 8
      let b5 ← packU (snapshot.regions.length : ℤ) 4
      let b6 ← snapshot.regions.foldlM (fun acc3 region => do
        let r1 ← packU region.start 8
        let r2 ← packU region.end_ 8
        let r3 ← packU region.nr_accesses 4
        pure (acc3 ++ r1 ++ r2 ++ r3)) ([] : List ℕ)
      pure (acc2 ++ b1 ++ b2 ++ b3 ++ b4 ++ b5 ++ b6)) acc) ([] : List ℕ)
  pure (magicBytes ++ vb ++ body)

/-- write_damon_result (src/_damon_result.py lines 302-320): every target
with exactly one snapshot gets a fake trailing snapshot appended (end time =
end + duration, single region (0, 0) with nr_accesses -1 and age -1) and
nr_snapshots is incremented, then the record format is written with version
2.  The perf_script text emitter (file_type 'perf_script') writes a text
file, which is outside this byte-level model. -/
def write_damon_result (result : DAMONResult) (file_type : String) :
    Option (List ℕ) := do
  let result1 ← result.target_snapshots.foldlM (fun res t =>
    if t.2.length = 1 then do
      let snapshot ← t.2.get? 0
      let st ← snapshot.start_time
      let snap_duration := snapshot.end_time - st
      let fake : DAMONSnapshot := ⟨some snapshot.end_time,
        snapshot.end_time + snap_duration, t.1, [⟨0, 0, -1, some (-1)⟩]⟩
      let nr ← res.nr_snapshots
      pure { res with
        target_snapshots := assocSet res.target_snapshots t.1 (t.2 ++ [fake]),
        nr_snapshots := some (nr + 1) }
    else pure res) result
  if file_type = "record" then
    write_damon_record result1 2
  else
    none

/-- The Monitoring Result on which claim C2's encode-then-decode round trip
fails: one target whose single snapshot holds the region [100,200) with
access count 3. -/
def c2FailingResult : DAMONResult :=
  ⟨some 0, some 0, some 1, [(0, [⟨some 0, 0, 0, [⟨100, 200, 3, none⟩]⟩])]⟩

/-- C2 as a code bug: encoding the single-snapshot example in the binary
record format fails outright, because the appended fake snapshot's region has
nr_accesses -1 and write_damon_record packs it with the unsigned 4-byte
format, which raises struct.error; no bytes are ever produced, so the claimed
encode-then-decode round trip cannot succeed. -/
theorem claim_C2_code_bug : write_damon_result c2FailingResult "record" = none := by
  norm_num [write_damon_result, write_damon_record, c2FailingResult, assocSet,
    ratInt, packI, packU, leBytes, List.range_succ]

/-- State threaded through the timing-normalization loop of
parse_damon_result_for (src/_damon_result.py lines 224-245): the result's
start/end time and snapshot count plus the local snapshot_time variable,
which persists across iterations. -/
structure NormState where
  res_start : Option ℚ
  res_end : Option ℚ
  res_nr : Option ℕ
  snapshot_time : Option ℚ
deriving DecidableEq, Repr

/-- Python truthiness of an optional number: None and 0 are falsy. -/
def pyTruthyQ (v : Option ℚ) : Bool :=
  match v with
  | none => false
  | some x => decide (x ≠ 0)

/-- First-snapshot start synthesis (src/_damon_result.py line 237):
snapshots[0].start_time = snapshots[0].end_time - snapshot_time. -/
def setFirstStart (snaps : List DAMONSnapshot) (stime : ℚ) :
    List DAMONSnapshot :=
  match snaps with
  | [] => []
  | s :: rest => { s with start_time := some (s.end_time - stime) } :: rest

/-- The fake end-of-window marker: a single region (0,0) with access count -1
and age -1 (src/_damon_result.py lines 240-243). -/
def isFakeTrailing (s : DAMONSnapshot) : Bool :=
  match s.regions with
  | [r] => decide (r.start = 0) && decide (r.end_ = 0) &&
      decide (r.nr_accesses = -1) &&
      (match r.age with
       | some a => decide (a = -1)
       | none => false)
  | _ => false

/-- Trailing-marker strip (src/_damon_result.py lines 239-244): a two-element
snapshot sequence whose second snapshot is the fake marker loses it. -/
def stripFake (snaps : List DAMONSnapshot) : List DAMONSnapshot :=
  match snaps with
  | [s0, s1] => if isFakeTrailing s1 then [s0] else [s0, s1]
  | l => l

/-- Mean inter-snapshot spacing of a target's sequence
(src/_damon_result.py lines 228-231): (last end - first end) / (length - 1). -/
def targetSpacing (snaps : List DAMONSnapshot) : ℚ :=
  ((snaps.getLastD default).end_time - (snaps.headD default).end_time) /
    ((snaps.length - 1 : ℕ) : ℚ)

/-- The normalization loop of parse_damon_result_for (src/_damon_result.py
lines 224-245).  A target with fewer than 2 snapshots breaks the loop, so it
and every later target stay untouched.  On the first target processed while
result.start_time is falsy, the overall times, the snapshot count and the
snapshot_time spacing are computed from that target; every processed target
then gets its first snapshot's start time synthesized with the current
snapshot_time and its trailing fake marker stripped. -/
def normLoop (st : NormState) : List (ℤ × List DAMONSnapshot) →
    NormState × List (ℤ × List DAMONSnapshot)
  | [] => (st, [])
  | (tid, snaps) :: rest =>
    if snaps.length < 2 then (st, (tid, snaps) :: rest)
    else
      let st1 := if pyTruthyQ st.res_start then st
        else
          let end_time := (snaps.getLastD default).end_time
          let start_time := (snaps.headD default).end_time
          let nr_snapshots := snaps.length - 1
          let snapshot_time := (end_time - start_time) / ((nr_snapshots : ℕ) : ℚ)
          ⟨some (start_time - snapshot_time), some end_time,
            some (nr_snapshots + 1), some snapshot_time⟩
      let stime := st1.snapshot_time.getD 0
      let snaps1 := stripFake (setFirstStart snaps stime)
      let p := normLoop st1 rest
      (p.1, (tid, snaps1) :: p.2)

/-- The timing-normalization stage of parse_damon_result_for applied to a
decoded result. -/
def normalize_result (r : DAMONResult) : DAMONResult :=
  let p := normLoop ⟨r.start_time, r.end_time, r.nr_snapshots, none⟩
    r.target_snapshots
  { start_time := p.1.res_start, end_time := p.1.res_end,
    nr_snapshots := p.1.res_nr, target_snapshots := p.2 }

/-- Per-target effect of one normalization iteration: synthesize the first
snapshot's start time from the given spacing, then strip the fake marker. -/
def normTarget (stime : ℚ) (snaps : List DAMONSnapshot) : List DAMONSnapshot :=
  stripFake (setFirstStart snaps stime)

/-- Spec-side description of what the loop does after its state is settled:
apply normTarget with the fixed spacing to each target in order, stopping at
(and keeping unchanged) the first target with fewer than 2 snapshots and
everything after it. -/
def normalizedTargets (stime : ℚ) : List (ℤ × List DAMONSnapshot) →
    List (ℤ × List DAMONSnapshot)
  | [] => []
  | (tid, snaps) :: rest =>
    if snaps.length < 2 then (tid, snaps) :: rest
    else (tid, normTarget stime snaps) :: normalizedTargets stime rest

/-- Result refuting claim C7: the first target has a single snapshot, the
second target has three snapshots awaiting normalization. -/
def c7CexResult : DAMONResult :=
  ⟨none, none, none,
   [(1, [⟨none, 100, 1, []⟩]),
    (2, [⟨none, 10, 2, [⟨0, 10, 1, none⟩]⟩,
         ⟨some 10, 20, 2, [⟨0, 10, 2, none⟩]⟩,
         ⟨some 20, 30, 2, [⟨0, 10, 3, none⟩]⟩])]⟩

/-- C7 counterexample: because the loop breaks (rather than continuing) at
the first target with fewer than 2 snapshots, nothing at all is normalized
here; in particular the second target's first snapshot keeps start_time None
despite its 3 snapshots, while the claim says that target's sequence would
still be normalized. -/
theorem claim_C7_counterexample :
    normalize_result c7CexResult = c7CexResult ∧
    ((c7CexResult.target_snapshots.getD 1 (0, [])).2.headD
      default).start_time = none :=
  ⟨rfl, rfl⟩

lemma normLoop_steady (st : NormState)
    (htruthy : pyTruthyQ st.res_start = true) :
    ∀ (l : List (ℤ × List DAMONSnapshot)),
    normLoop st l = (st, normalizedTargets (st.snapshot_time.getD 0) l) := by
  intro l
  induction l with
  | nil => rfl
  | cons t rest ih =>
    obtain ⟨tid, snaps⟩ := t
    rw [normLoop, normalizedTargets]
    by_cases hlen : snaps.length < 2
    · rw [if_pos hlen, if_pos hlen]
    · rw [if_neg hlen, if_neg hlen]
      simp only [htruthy, ite_true]
      rw [ih]
      rfl

lemma normLoop_first (re : Option ℚ) (rn : Option ℕ) (tid : ℤ)
    (snaps : List DAMONSnapshot) (rest : List (ℤ × List DAMONSnapshot))
    (hlen : 2 ≤ snaps.length)
    (hnz : (snaps.headD default).end_time - targetSpacing snaps ≠ 0) :
    normLoop ⟨none, re, rn, none⟩ ((tid, snaps) :: rest) =
      (⟨some ((snaps.headD default).end_time - targetSpacing snaps),
        some (snaps.getLastD default).end_time, some (snaps.length - 1 + 1),
        some (targetSpacing snaps)⟩,
       (tid, normTarget (targetSpacing snaps) snaps) ::
         normalizedTargets (targetSpacing snaps) rest) := by
  have hsteady := normLoop_steady
    ⟨some ((snaps.headD default).end_time - targetSpacing snaps),
     some (snaps.getLastD default).end_time, some (snaps.length - 1 + 1),
     some (targetSpacing snaps)⟩ (decide_eq_true hnz) rest
  rw [normLoop, if_neg (Nat.not_lt.mpr hlen)]
  exact congrArg (fun p =>
    (p.1, (tid, stripFake (setFirstStart snaps (targetSpacing snaps))) :: p.2))
    hsteady

/-- C7 amended: normalization processes targets in insertion order and stops
at the first target with fewer than 2 snapshots.  If that target comes first
(or there are no targets) the result is entirely unchanged.  Otherwise, every
target before it gets its first snapshot's start time set to its end time
minus the mean spacing of the FIRST target's sequence (reused for all later
targets, provided the synthesized overall start time is nonzero) and its
trailing fake marker stripped, while the short target and everything after it
stay untouched. -/
theorem claim_C7_amended (r : DAMONResult) (h0 : r.start_time = none) :
    ((r.target_snapshots = [] ∨
        ∃ t0 rest, r.target_snapshots = t0 :: rest ∧ t0.2.length < 2) →
      normalize_result r = r) ∧
    (∀ t0 rest, r.target_snapshots = t0 :: rest → 2 ≤ t0.2.length →
      (t0.2.headD default).end_time - targetSpacing t0.2 ≠ 0 →
      (normalize_result r).target_snapshots =
        (t0.1, normTarget (targetSpacing t0.2) t0.2) ::
          normalizedTargets (targetSpacing t0.2) rest) := by
  obtain ⟨rs, re, rn, rts⟩ := r
  simp only at h0
  subst h0
  constructor
  · intro hcase
    rcases hcase with hnil | ⟨t0, rest, hts, hlen⟩
    · simp only at hnil
      subst hnil
      rfl
    · simp only at hts
      subst hts
      obtain ⟨tid, snaps⟩ := t0
      simp only at hlen
      unfold normalize_result
      rw [normLoop, if_pos hlen]
  · intro t0 rest hts hlen hnz
    simp only at hts
    subst hts
    obtain ⟨tid, snaps⟩ := t0
    simp only at hlen hnz
    unfold normalize_result
    rw [normLoop_first re rn tid snaps rest hlen hnz]

/-- First target's snapshots for the claim_C7_amended witness: end times 0
and 2, so the mean spacing is 2. -/
def c7WitnessSnaps : List DAMONSnapshot := [⟨none, 0, 1, []⟩, ⟨some 0, 2, 1, []⟩]

/-- Result for the claim_C7_amended witness: a two-snapshot first target
followed by a single-snapshot target. -/
def c7WitnessResult : DAMONResult :=
  ⟨none, none, none, [(1, c7WitnessSnaps), (2, [⟨none, 9, 2, []⟩])]⟩

/-- Witness for claim_C7_amended: the first target is normalized with its own
spacing and the trailing single-snapshot target stops the loop. -/
theorem claim_C7_amended_witness :
    c7WitnessResult.start_time = none ∧
    2 ≤ c7WitnessSnaps.length ∧
    (c7WitnessSnaps.headD default).end_time - targetSpacing c7WitnessSnaps ≠ 0 ∧
    (normalize_result c7WitnessResult).target_snapshots =
      (1, normTarget (targetSpacing c7WitnessSnaps) c7WitnessSnaps) ::
        normalizedTargets (targetSpacing c7WitnessSnaps)
          [(2, [⟨none, 9, 2, []⟩])] := by
  have hnz : (c7WitnessSnaps.headD default).end_time -
      targetSpacing c7WitnessSnaps ≠ 0 := by
    norm_num [c7WitnessSnaps, targetSpacing, List.getLastD, List.headD]
  exact ⟨rfl, by decide, hnz,
    (claim_C7_amended c7WitnessResult rfl).2 (1, c7WitnessSnaps)
      [(2, [⟨none, 9, 2, []⟩])] rfl (by decide) hnz⟩
